import Mathlib

/-!
# selly-notify-bot

A shallow embedding of `main.go` (the webhook receiver, the notifier and the
channel discovery routine) and of the vendored `go-selly` client
(`GetProduct`, `ErrorResponse`).

Conventions of the embedding.

* Go strings are Lean `String`s; functions that scan a string work on its
  list of characters.
* A Go `map` that may be `nil` is an `Option`: `none` is the nil map, which
  can be read but not written.
* A Go pointer that may be `nil` is an `Option`.
* Code of the Go standard library and of third-party packages that the
  repository calls is not part of the repository.  Small pure functions
  (`strconv.ParseInt`, `strconv.Atoi`, `net.SplitHostPort`) are modelled
  directly from their published behaviour.  Everything else (JSON decoding,
  the pretty printer, `fmt.Sprintf`, the Telegram client, the HTTP client) is
  a field of the record `World`, over which the repository code is
  parametric; `goWorld` is a reference instance used for concrete runs.
-/

namespace SellyNotify

/-! ## strconv -/

namespace strconv

/-- The error kinds of `strconv.NumError`. -/
inductive NumError where
  | ErrSyntax
  | ErrRange
  | ErrBitSize
  deriving DecidableEq, Repr

/-- `strconv.IntSize` on a 64-bit platform. -/
def IntSize : Nat := 64

/-- The constant `maxUint64`. -/
def maxUint64 : Nat := 2 ^ 64 - 1

/-- The digit loop of `strconv.ParseUint(s, 10, bitSize)`: `n` is the
accumulator (a `uint64`), `maxVal` is `1<<bitSize - 1`.  With base 10 every
byte that is not a decimal digit is a syntax error (letters are digits of
value at least 10, the underscore is only accepted with base 0). -/
def parseUintLoop (maxVal : Nat) : List Char → Nat → Nat × Option NumError
  | [], n => (n, none)
  | c :: cs, n =>
    if '0' ≤ c ∧ c ≤ '9' then
      let d := c.toNat - '0'.toNat
      if n ≥ maxUint64 / 10 + 1 then (maxVal, some .ErrRange)
      else
        let n10 := n * 10
        let n1 := (n10 + d) % 2 ^ 64
        if n1 < n10 ∨ n1 > maxVal then (maxVal, some .ErrRange)
        else parseUintLoop maxVal cs n1
    else (0, some .ErrSyntax)

/-- The function `strconv.ParseUint(s, 10, bitSize)`. -/
def ParseUint (s : List Char) (bitSize : Nat) : Nat × Option NumError :=
  if s = [] then (0, some .ErrSyntax)
  else
    let bitSize := if bitSize = 0 then IntSize else bitSize
    if bitSize > 64 then (0, some .ErrBitSize)
    else parseUintLoop (2 ^ bitSize - 1) s 0

/-- The function `strconv.ParseInt(s, 10, bitSize)`: the value and the error
it returns (`none` is the nil error). -/
def ParseInt (s : List Char) (bitSize : Nat) : Int × Option NumError :=
  match s with
  | [] => (0, some .ErrSyntax)
  | c :: cs =>
    let neg := c = '-'
    let digits := if c = '+' ∨ c = '-' then cs else c :: cs
    match ParseUint digits bitSize with
    | (_, some .ErrSyntax) => (0, some .ErrSyntax)
    | (_, some .ErrBitSize) => (0, some .ErrBitSize)
    | (un, _) =>
      let bitSize := if bitSize = 0 then IntSize else bitSize
      let cutoff : Nat := 2 ^ (bitSize - 1)
      if ¬ neg ∧ un ≥ cutoff then (((cutoff - 1 : Nat) : Int), some .ErrRange)
      else if neg ∧ un > cutoff then (-(cutoff : Int), some .ErrRange)
      else (if neg then -(un : Int) else (un : Int), none)

/-- The function `strconv.Atoi(s)`, which is `ParseInt(s, 10, 0)` converted
to `int`. -/
def Atoi (s : List Char) : Int × Option NumError :=
  ParseInt s 0

end strconv

/-! ## main: the bind address -/

/-- The process environment: `os.Getenv`, which yields the empty string for a
variable that is not set. -/
abbrev Environ := String → String

/-- The value of `addr` that `main` passes to `Serve` (main.go, lines 70 to
76). -/
def mainAddr (getenv : Environ) : String :=
  let addr := getenv "PORT"
  let addr := if addr = "" then ":8080" else addr
  let addr := if (strconv.Atoi addr.data).2 = none then ":" ++ addr else addr
  addr

/-- An environment in which only `PORT` is set. -/
def envPort (port : String) : Environ :=
  fun k => if k = "PORT" then port else ""

/-- A bare numeric string in the words of the specification: a non-empty
string of decimal digits. -/
def isBareNumeric (s : List Char) : Bool :=
  !s.isEmpty && s.all (fun c => decide ('0' ≤ c ∧ c ≤ '9'))

/-- The bind address as the specification words it. -/
def specBindAddr (port : String) : String :=
  if port = "" then ":8080"
  else if isBareNumeric port.data then ":" ++ port
  else port

/-- The value of a string of decimal digits, most significant digit first. -/
def decimalValue (s : List Char) : Nat :=
  s.foldl (fun n c => n * 10 + (c.toNat - '0'.toNat)) 0

/-- The strings `strconv.Atoi` accepts on a 64-bit platform, described
without reference to its code: an optional sign, then a non-empty string of
decimal digits whose signed value lies in the `int64` range. -/
def isInt64Literal (s : List Char) : Bool :=
  match s with
  | [] => false
  | c :: cs =>
    if c = '-' then isBareNumeric cs && decide (decimalValue cs ≤ 2 ^ 63)
    else if c = '+' then isBareNumeric cs && decide (decimalValue cs < 2 ^ 63)
    else isBareNumeric (c :: cs) && decide (decimalValue (c :: cs) < 2 ^ 63)

/-- The bind address `main` computes, described through `isInt64Literal`. -/
def amendedBindAddr (port : String) : String :=
  if port = "" then ":8080"
  else if isInt64Literal port.data then ":" ++ port
  else port

/-! ## net.SplitHostPort -/

namespace net

/-- The reasons `net.SplitHostPort` gives in its `AddrError`. -/
inductive AddrError where
  | missingPort
  | tooManyColons
  | missingBracket
  | unexpectedOpen
  | unexpectedClose
  deriving DecidableEq, Repr

/-- The text of an `AddrError` reason. -/
def AddrError.msg : AddrError → String
  | .missingPort => "missing port in address"
  | .tooManyColons => "too many colons in address"
  | .missingBracket => "missing ']' in address"
  | .unexpectedOpen => "unexpected '[' in address"
  | .unexpectedClose => "unexpected ']' in address"

/-- The method `AddrError.Error` for the error `SplitHostPort` returns on the
address `addr`. -/
def AddrError.Error (err : AddrError) (addr : String) : String :=
  if addr ≠ "" then "address " ++ addr ++ ": " ++ err.msg else err.msg

/-- Index of the first occurrence of `c` (`bytealg.IndexByteString`), `none`
for the result -1. -/
def indexByte (s : List Char) (c : Char) : Option Nat :=
  match s with
  | [] => none
  | x :: xs => if x = c then some 0 else (indexByte xs c).map (· + 1)

/-- Index of the last occurrence of `c` (`bytealg.LastIndexByteString`),
`none` for the result -1. -/
def lastIndexByte (s : List Char) (c : Char) : Option Nat :=
  match s with
  | [] => none
  | x :: xs =>
    match lastIndexByte xs c with
    | some i => some (i + 1)
    | none => if x = c then some 0 else none

/-- The tail of `net.SplitHostPort`: the checks for stray brackets after
positions `j` and `k`, then the port after the last colon at `i`. -/
def splitFinish (hostport host : List Char) (i j k : Nat) :
    Except AddrError (List Char × List Char) :=
  if (indexByte (hostport.drop j) '[').isSome then .error .unexpectedOpen
  else if (indexByte (hostport.drop k) ']').isSome then .error .unexpectedClose
  else .ok (host, hostport.drop (i + 1))

/-- The function `net.SplitHostPort`. -/
def SplitHostPort (hostport : List Char) : Except AddrError (List Char × List Char) :=
  match lastIndexByte hostport ':' with
  | none => .error .missingPort
  | some i =>
    if hostport.head? = some '[' then
      match indexByte hostport ']' with
      | none => .error .missingBracket
      | some close =>
        if close + 1 = hostport.length then .error .missingPort
        else if close + 1 = i then
          splitFinish hostport ((hostport.take close).drop 1) i 1 (close + 1)
        else if hostport.get? (close + 1) = some ':' then .error .tooManyColons
        else .error .missingPort
    else
      let host := hostport.take i
      if (indexByte host ':').isSome then .error .tooManyColons
      else splitFinish hostport host i 0 0

end net

/-! ## Data model -/

/-- A Go `error` value, by its message.  The messages of the errors of the
packages are abridged. -/
structure Error where
  msg : String
  deriving DecidableEq, Repr

/-- A JSON value.  A number keeps its literal text. -/
inductive JSON where
  | null
  | bool (b : Bool)
  | num (lit : String)
  | str (s : String)
  | arr (xs : List JSON)
  | obj (kvs : List (String × JSON))

/-- The type `selly.Webhook` (selly.go, lines 145 to 164).  A field of type
`interface{}` holds `none` for nil and otherwise the JSON value it was
decoded from. -/
structure Webhook where
  ID : String
  ProductID : String
  Email : String
  IPAddress : String
  CountryCode : String
  UserAgent : String
  Value : String
  Currency : String
  Gateway : String
  RiskLevel : Int
  Status : Int
  Delivered : String
  CryptoValue : Option JSON
  CryptoAddress : Option JSON
  Referral : String
  WebhookType : Int
  CreatedAt : String
  UpdatedAt : String

/-- The zero value `selly.Webhook{}`. -/
def Webhook.zero : Webhook :=
  { ID := "", ProductID := "", Email := "", IPAddress := "", CountryCode := "",
    UserAgent := "", Value := "", Currency := "", Gateway := "", RiskLevel := 0,
    Status := 0, Delivered := "", CryptoValue := none, CryptoAddress := none,
    Referral := "", WebhookType := 0, CreatedAt := "", UpdatedAt := "" }

/-- The type `tgbotapi.BotAPI`, reduced to its token. -/
structure BotAPI where
  Token : String
  deriving DecidableEq, Repr

/-- The type `tgbotapi.Chat`, reduced to its id. -/
structure Chat where
  ID : Int
  deriving DecidableEq, Repr

/-- The type `tgbotapi.Message`, reduced to the fields main.go reads.  `Chat`
is a pointer. -/
structure Message where
  MessageID : Int
  Chat : Option Chat
  Text : String
  deriving DecidableEq, Repr

/-- The type `tgbotapi.Update`, reduced to the fields main.go reads.
`Message` is a pointer: it is nil for an update that carries something other
than a new message (an edited message, a channel post, a callback query). -/
structure Update where
  UpdateID : Int
  Message : Option Message
  deriving DecidableEq, Repr

/-- The type `Bot` of main.go (lines 28 to 38).  The channel `ch` is never
used and is left out.  The map `badguys` only ever receives `new(struct{})`,
so a non-nil map is represented by the list of its keys. -/
structure Bot where
  tokenTG : String
  tokenSelly : String
  emailSelly : String
  secret : String
  tgbot : Option BotAPI
  tgchatid : Int
  badguys : Option (List String)
  channel : String
  deriving DecidableEq, Repr

/-- The part of `http.Request` that `Handler` reads.  `Query` is the parsed
`r.URL.Query()`, as key and value pairs in order of appearance. -/
structure Request where
  RemoteAddr : String
  Host : String
  Query : List (String × String)
  Body : String
  deriving DecidableEq, Repr

/-- The method `url.Values.Get`: the first value of the key, or the empty
string. -/
def Request.queryGet (r : Request) (key : String) : String :=
  match r.Query.find? (fun kv => kv.1 = key) with
  | some kv => kv.2
  | none => ""

/-- What a handler has written to its `http.ResponseWriter`: the status code
once the header is written, and the body.  The header fields are not
modelled. -/
structure ResponseWriter where
  status : Option Nat
  body : String
  deriving DecidableEq, Repr

/-- The writer a handler receives: nothing written yet. -/
def ResponseWriter.fresh : ResponseWriter := { status := none, body := "" }

/-- The method `WriteHeader`: the first call fixes the status. -/
def ResponseWriter.WriteHeader (w : ResponseWriter) (code : Nat) : ResponseWriter :=
  match w.status with
  | some _ => w
  | none => { w with status := some code }

/-- The method `Write`: writes the header with status 200 if it is not
written yet, then appends to the body. -/
def ResponseWriter.Write (w : ResponseWriter) (s : String) : ResponseWriter :=
  let w := w.WriteHeader 200
  { w with body := w.body ++ s }

/-- The function `io.WriteString(w, s)`. -/
def WriteString (w : ResponseWriter) (s : String) : ResponseWriter :=
  w.Write s

/-- The function `http.Error(w, msg, code)`: the status, then the message
and a newline. -/
def httpError (w : ResponseWriter) (msg : String) (code : Nat) : ResponseWriter :=
  (w.WriteHeader code).Write (msg ++ "\n")

/-- The constant `http.StatusForbidden`. -/
def StatusForbidden : Nat := 403

/-- A `time.Time` read from JSON: `none` is the zero time, otherwise the
RFC 3339 text the instant was parsed from. -/
structure Time where
  rfc3339 : Option String

/-- The type `selly.Product` (selly.go, lines 48 to 73). -/
structure Product where
  ID : String
  Title : String
  Description : String
  Stock : Int
  Price : String
  Currency : String
  ProductType : Int
  Bitcoin : Bool
  Paypal : Bool
  Stripe : Bool
  Litecoin : Bool
  Dash : Bool
  Ethereum : Bool
  PerfectMoney : Bool
  BitcoinCash : Bool
  Ripple : Bool
  Private : Bool
  Unlisted : Bool
  SellerNote : String
  MaximumQuantity : Option JSON
  MinimumQuantity : Int
  Custom : Unit
  CreatedAt : Time
  UpdatedAt : Time

/-- The zero value `Product{}`. -/
def Product.zero : Product :=
  { ID := "", Title := "", Description := "", Stock := 0, Price := "", Currency := "",
    ProductType := 0, Bitcoin := false, Paypal := false, Stripe := false,
    Litecoin := false, Dash := false, Ethereum := false, PerfectMoney := false,
    BitcoinCash := false, Ripple := false, Private := false, Unlisted := false,
    SellerNote := "", MaximumQuantity := none, MinimumQuantity := 0, Custom := (),
    CreatedAt := ⟨none⟩, UpdatedAt := ⟨none⟩ }

/-- The type `selly.ErrorResponse` (selly.go, lines 29 to 34); `Title` is
the field `Errors.Title`. -/
structure ErrorResponse where
  Message : String
  Title : List String
  deriving DecidableEq, Repr

/-- The zero value `ErrorResponse{}`. -/
def ErrorResponse.zero : ErrorResponse := { Message := "", Title := [] }

/-- The type `tgun.Client`, as `selly.New` fills it in. -/
structure Client where
  UserAgent : String
  AuthUser : String
  AuthPassword : String
  Proxy : String
  deriving DecidableEq, Repr

/-- The type `selly.Selly` (selly.go, lines 22 to 27). -/
structure Selly where
  httpClient : Client
  Email : String
  Token : String
  UserAgent : String
  deriving DecidableEq, Repr

/-- An operand of `fmt.Sprintf`, of one of the types the repository passes:
`int64`, `string`, `[]string`. -/
inductive Arg where
  | int64 (n : Int)
  | str (s : String)
  | strs (xs : List String)
  deriving DecidableEq, Repr

/-- What the program does to the outside, in order. -/
inductive Event where
  | log (line : String)
  | logUpdate (u : Update)
  | send (chatID : Int) (text : String)
  | getChat (username : String)
  | getUpdatesChan (timeout : Nat)
  | deleteMessage (chatID : Int) (messageID : Int)
  deriving DecidableEq, Repr

/-- How a run of a function ends: it returns, it panics, the process exits
(`log.Fatal`), or it waits for ever on the update channel. -/
inductive Exit where
  | returned
  | panicked (reason : String)
  | fatal
  | blocked
  deriving DecidableEq, Repr

/-- The panic of a write to a nil map. -/
def nilMapPanic : String := "assignment to entry in nil map"

/-- The panic of a nil pointer dereference. -/
def nilDerefPanic : String := "invalid memory address or nil pointer dereference"

/-- The behaviour of the packages the repository calls and of the network
behind them.

* `decodeWebhook body w` is `json.NewDecoder(body).Decode(&w)`: the value
  left in `w` and the error.
* `unmarshalProduct b p`, `unmarshalErrorResponse b e` are `json.Unmarshal`.
* `prettySprint` is `pretty.Sprint` on a `selly.Webhook`.
* `Sprintf` is `fmt.Sprintf`.
* `NewBotAPI`, `Send`, `GetChat`, `GetUpdatesChan`, `DeleteMessage` are the
  calls of the Telegram client; `GetUpdatesChan` yields the updates that will
  arrive on the channel, which is never closed.
* `GetBytes` is `tgun.Client.GetBytes`. -/
structure World where
  decodeWebhook : String → Webhook → Webhook × Option Error
  unmarshalProduct : String → Product → Product × Option Error
  unmarshalErrorResponse : String → ErrorResponse → ErrorResponse × Option Error
  prettySprint : Webhook → String
  Sprintf : String → List Arg → String
  NewBotAPI : String → Except Error BotAPI
  Send : Int → String → Option Error
  GetChat : String → Except Error Chat
  GetUpdatesChan : Except Error (List Update)
  DeleteMessage : Int → Int → Option Error
  GetBytes : Client → String → Except Error String

/-! ## main.go -/

/-- The method `Bot.Say` (main.go, lines 88 to 93): the events of the call, or
the panic of calling `Send` through a nil `tgbot`. -/
def Bot.Say (W : World) (b : Bot) (msg : String) (i : List Arg) :
    Except String (List Event) :=
  match b.tgbot with
  | none => .error nilDerefPanic
  | some _ =>
    let text := W.Sprintf msg i
    match W.Send b.tgchatid text with
    | none => .ok [.send b.tgchatid text]
    | some err => .ok [.send b.tgchatid text, .log err.msg]

/-- A read `m[key] != nil` of the map `badguys`; a nil map reads as empty. -/
def badguysLookup (m : Option (List String)) (key : String) : Bool :=
  match m with
  | none => false
  | some keys => keys.contains key

/-- The method `Bot.checkRequest` (main.go, lines 62 to 67).  The parameter
`ip` is not used by the body. -/
def Bot.checkRequest (b : Bot) (_ip : String) (r : Request) : Bool :=
  if badguysLookup b.badguys r.RemoteAddr then false else true

/-- The result of a run of `Handler`. -/
structure HandlerResult where
  bot : Bot
  w : ResponseWriter
  events : List Event
  exit : Exit
  deriving DecidableEq, Repr

/-- The method `Bot.Handler` (main.go, lines 40 to 60). -/
def Bot.Handler (W : World) (b : Bot) (w : ResponseWriter) (r : Request) : HandlerResult :=
  match net.SplitHostPort r.RemoteAddr.data with
  | .error err => ⟨b, w, [.log (err.Error r.RemoteAddr)], .fatal⟩
  | .ok (host, _) =>
    let ip := String.mk host
    if !b.checkRequest ip r then ⟨b, w, [], .returned⟩
    else
      let secret := r.queryGet "secret"
      if secret = b.secret then
        let webhook := (W.decodeWebhook r.Body Webhook.zero).1
        let logged := [Event.log (W.prettySprint webhook)]
        match b.Say W (W.prettySprint webhook) [] with
        | .error reason => ⟨b, w, logged, .panicked reason⟩
        | .ok said => ⟨b, WriteString w "200", logged ++ said, .returned⟩
      else
        let w := httpError w "Invalid secret" StatusForbidden
        let logged := [Event.log ("warn: Invalid secret attempted" ++ r.Host)]
        match b.badguys with
        | none => ⟨b, w, logged, .panicked nilMapPanic⟩
        | some keys =>
          ⟨{ b with badguys := some (if keys.contains ip then keys else ip :: keys) },
            w, logged, .returned⟩

/-- The `Bot` that `main` constructs (main.go, lines 77 to 83): the fields it
does not name have their zero values, so `tgbot` and `badguys` are nil. -/
def mainBot (getenv : Environ) : Bot :=
  { tokenTG := getenv "TOKENTELE"
    tokenSelly := getenv "TOKENSELLY"
    emailSelly := getenv "EMAIL"
    secret := getenv "SECRET"
    channel := getenv "TELECHAN"
    tgbot := none
    tgchatid := 0
    badguys := none }

/-- The result of a run of `LaunchTelegramBot`, or of a part of it. -/
structure LaunchResult where
  bot : Bot
  events : List Event
  exit : Exit
  deriving DecidableEq, Repr

/-- The loop `for update := range updates` of `LaunchTelegramBot` (main.go,
lines 122 to 135) over the updates that arrive.  It ends `returned` at the
`break`; when the updates run out it waits on the channel. -/
def pollUpdates (W : World) (b : Bot) : List Update → LaunchResult
  | [] => ⟨b, [], .blocked⟩
  | update :: rest =>
    match update.Message with
    | none => ⟨b, [.logUpdate update], .panicked nilDerefPanic⟩
    | some m =>
      if m.Text = "/here" then
        match m.Chat with
        | none => ⟨b, [.logUpdate update], .panicked nilDerefPanic⟩
        | some chat =>
          let logged :=
            match W.DeleteMessage chat.ID m.MessageID with
            | some err => [Event.log err.msg]
            | none => []
          ⟨{ b with tgchatid := chat.ID },
            [.logUpdate update, .deleteMessage chat.ID m.MessageID] ++ logged, .returned⟩
      else
        let r := pollUpdates W b rest
        ⟨r.bot, .logUpdate update :: r.events, r.exit⟩

/-- Lines 101 to 114 of `LaunchTelegramBot`: the chat id from the configured
channel. -/
def resolveChannel (W : World) (b : Bot) : LaunchResult :=
  if b.channel ≠ "" then
    let parsed := strconv.ParseInt b.channel.data 64
    let b := { b with tgchatid := parsed.1 }
    match parsed.2 with
    | none => ⟨b, [], .returned⟩
    | some _ =>
      let b := { b with tgchatid := 0 }
      match W.GetChat b.channel with
      | .error err => ⟨b, [.getChat b.channel], .panicked err.msg⟩
      | .ok chat => ⟨{ b with tgchatid := chat.ID }, [.getChat b.channel], .returned⟩
  else ⟨b, [], .returned⟩

/-- Lines 115 to 136 of `LaunchTelegramBot`: the discovery through the update
stream. -/
def discoverChat (W : World) (b : Bot) : LaunchResult :=
  if b.tgchatid ≠ 0 then
    match W.GetUpdatesChan with
    | .error err => ⟨b, [.getUpdatesChan 60], .panicked err.msg⟩
    | .ok updates =>
      let r := pollUpdates W b updates
      ⟨r.bot, .getUpdatesChan 60 :: r.events, r.exit⟩
  else ⟨b, [], .returned⟩

/-- The method `Bot.LaunchTelegramBot` (main.go, lines 95 to 138). -/
def Bot.LaunchTelegramBot (W : World) (b : Bot) : LaunchResult :=
  match W.NewBotAPI b.tokenTG with
  | .error err => ⟨b, [.log err.msg], .panicked err.msg⟩
  | .ok bt =>
    let b := { b with tgbot := some bt }
    let r1 := resolveChannel W b
    match r1.exit with
    | .returned =>
      let r2 := discoverChat W r1.bot
      match r2.exit with
      | .returned =>
        match r2.bot.Say W "Hi guys: %s" [.int64 r2.bot.tgchatid] with
        | .error reason => ⟨r2.bot, r1.events ++ r2.events, .panicked reason⟩
        | .ok said => ⟨r2.bot, r1.events ++ r2.events ++ said, .returned⟩
      | stop => ⟨r2.bot, r1.events ++ r2.events, stop⟩
    | stop => ⟨r1.bot, r1.events, stop⟩

/-! ## go-selly -/

/-- The method `ErrorResponse.String` (selly.go, lines 40 to 45). -/
def ErrorResponse.String (W : World) (e : ErrorResponse) : String :=
  if e.Title.length = 0 then e.Message
  else W.Sprintf "%s: %s" [.str e.Message, .strs e.Title]

/-- The method `ErrorResponse.Error` (selly.go, lines 36 to 38). -/
def ErrorResponse.Error (W : World) (e : ErrorResponse) :=
  e.String W

/-- The `error` a client method returns: the error of the HTTP call, or an
`ErrorResponse` value. -/
inductive ClientError where
  | transport (err : Error)
  | api (e : ErrorResponse)
  deriving DecidableEq, Repr

/-- The method `Selly.GetProduct` (selly.go, lines 199 to 213): the product
pointer and the error it returns. -/
def Selly.GetProduct (W : World) (s : Selly) (id : String) :
    Option Product × Option ClientError :=
  let furl := "https://selly.gg/api/v2/products/%s"
  match W.GetBytes s.httpClient (W.Sprintf furl [.str id]) with
  | .error err => (none, some (.transport err))
  | .ok b =>
    let decoded := W.unmarshalProduct b Product.zero
    match decoded.2 with
    | some _ =>
      let errar := (W.unmarshalErrorResponse b ErrorResponse.zero).1
      (none, some (.api errar))
    | none => (some decoded.1, none)

/-! ## Reference models of the packages

The definitions of this section are the fields of `goWorld`.  They follow the
published behaviour of the Go packages on the inputs described in their
comments; the theorems that hold for every `World` do not depend on them. -/

/-! ### fmt.Sprintf -/

namespace fmt

/-- The text of an integer in base 10. -/
def decimal (n : Int) : List Char :=
  if n < 0 then '-' :: (Nat.toDigits 10 n.natAbs) else Nat.toDigits 10 n.natAbs

/-- The name of the Go type of an operand. -/
def typeName : Arg → List Char
  | .int64 _ => "int64".data
  | .str _ => "string".data
  | .strs _ => "[]string".data

/-- The text of `%!verb(type=value)` for a string operand or element. -/
def badVerbString (verb : Char) (s : String) : List Char :=
  "%!".data ++ [verb] ++ "(string=".data ++ s.data ++ ")".data

/-- The method `printArg` for the operand types of `Arg`, flags, width and
precision not applied: `%v` and `%d` print an `int64` in decimal, `%v` and
`%s` print a string as it is and a `[]string` as its elements between
brackets.  A verb that does not fit the operand is reported as
`%!verb(type=value)`; the further verbs Go accepts for these operands (`b`,
`c`, `o`, `O`, `q`, `x`, `X`, `U`) are outside this model, and the repository
uses none of them. -/
def printArg (arg : Arg) (verb : Char) : List Char :=
  match arg with
  | .int64 n =>
    if verb = 'v' ∨ verb = 'd' then decimal n
    else "%!".data ++ [verb] ++ "(int64=".data ++ decimal n ++ ")".data
  | .str s =>
    if verb = 'v' ∨ verb = 's' then s.data else badVerbString verb s
  | .strs xs =>
    let each := xs.map (fun s => if verb = 'v' ∨ verb = 's' then s.data else badVerbString verb s)
    '[' :: (" ".data).intercalate each ++ [']']

/-- The function `parsenum` over the rest of its region: the number, whether
there was one, and what follows it.  After more than a million it gives up
and skips the region. -/
def parsenum : List Char → Nat → Bool → Nat × Bool × List Char
  | [], num, isnum => (num, isnum, [])
  | c :: cs, num, isnum =>
    if '0' ≤ c ∧ c ≤ '9' then
      if num > 1000000 then (0, false, [])
      else parsenum cs (num * 10 + (c.toNat - '0'.toNat)) true
    else (num, isnum, c :: cs)

/-- The function `parseArgNumber` on a format that starts with an opening
bracket: the index, the number of characters to skip, and whether the
bracket holds a number. -/
def parseArgNumber (format : List Char) : Int × Nat × Bool :=
  if format.length < 3 then (0, 1, false)
  else
    match (format.drop 1).indexOf? ']' with
    | none => (0, 1, false)
    | some k =>
      let i := k + 1
      let r := parsenum ((format.take i).drop 1) 0 false
      if !r.2.1 ∨ r.2.2 ≠ [] then (0, i + 1, false)
      else ((r.1 : Int) - 1, i + 1, true)

/-- The state of the printer while a directive is read. -/
structure Directive where
  out : List Char
  argNum : Nat
  afterIndex : Bool
  goodArgNum : Bool
  reordered : Bool

/-- The method `argNumber`. -/
def argNumber (d : Directive) (format : List Char) (numArgs : Nat) :
    Directive × List Char :=
  match format with
  | [] => ({ d with afterIndex := false }, format)
  | c :: _ =>
    if c ≠ '[' then ({ d with afterIndex := false }, format)
    else
      let r := parseArgNumber format
      if r.2.2 ∧ 0 ≤ r.1 ∧ r.1 < numArgs then
        ({ d with reordered := true, argNum := r.1.toNat, afterIndex := true },
          format.drop r.2.1)
      else
        ({ d with reordered := true, goodArgNum := false, afterIndex := r.2.2 },
          format.drop r.2.1)

/-- The function `intFromArg`: the integer at `argNum`, whether the operand
is a usable integer, and the next operand index. -/
def intFromArg (a : List Arg) (argNum : Nat) : Int × Bool × Nat :=
  match a.get? argNum with
  | none => (0, false, argNum)
  | some (.int64 n) =>
    if n.natAbs ≤ 1000000 then (n, true, argNum + 1) else (0, false, argNum + 1)
  | some _ => (0, false, argNum + 1)

/-- The flags of a directive. -/
def skipFlags : List Char → List Char
  | [] => []
  | c :: cs =>
    if c = '#' ∨ c = '0' ∨ c = '+' ∨ c = '-' ∨ c = ' ' then skipFlags cs else c :: cs

/-- The width of a directive. -/
def readWidth (a : List Arg) (d : Directive) (format : List Char) : Directive × List Char :=
  match format with
  | '*' :: rest =>
    let r := intFromArg a d.argNum
    let d := { d with argNum := r.2.2, afterIndex := false }
    (if r.2.1 then d else { d with out := d.out ++ "%!(BADWIDTH)".data }, rest)
  | _ =>
    let r := parsenum format 0 false
    (if d.afterIndex ∧ r.2.1 then { d with goodArgNum := false } else d, r.2.2)

/-- The precision of a directive. -/
def readPrecision (a : List Arg) (d : Directive) (format : List Char) :
    Directive × List Char :=
  match format with
  | '.' :: rest =>
    let d := if d.afterIndex then { d with goodArgNum := false } else d
    let r := argNumber d rest a.length
    match r.2 with
    | '*' :: rest =>
      let n := intFromArg a r.1.argNum
      let d := { r.1 with argNum := n.2.2, afterIndex := false }
      (if n.2.1 ∧ 0 ≤ n.1 then d else { d with out := d.out ++ "%!(BADPREC)".data }, rest)
    | rest => (r.1, (parsenum rest 0 false).2.2)
  | _ => (d, format)

/-- The verb of a directive: the text it adds and the operand index after
it. -/
def applyVerb (a : List Arg) (d : Directive) (verb : Char) : Directive :=
  if verb = '%' then { d with out := d.out ++ ['%'] }
  else if !d.goodArgNum then
    { d with out := d.out ++ "%!".data ++ [verb] ++ "(BADINDEX)".data }
  else
    match a.get? d.argNum with
    | none => { d with out := d.out ++ "%!".data ++ [verb] ++ "(MISSING)".data }
    | some arg => { d with out := d.out ++ printArg arg verb, argNum := d.argNum + 1 }

/-- The text `%!(EXTRA type=value, ...)` for the operands left over. -/
def extraArgs (rest : List Arg) : List Char :=
  "%!(EXTRA ".data ++
    (", ".data).intercalate (rest.map (fun arg => typeName arg ++ ['='] ++ printArg arg 'v')) ++
    ")".data

/-- The index, the width, the precision and the index again, read after the
flags of a directive: the state of the printer before the verb, and the
format from the verb on. -/
def readDirective (a : List Arg) (d : Directive) (format : List Char) :
    Directive × List Char :=
  let r := argNumber d format a.length
  let r := readWidth a r.1 r.2
  let r := readPrecision a r.1 r.2
  if r.1.afterIndex then r else argNumber r.1 r.2 a.length

/-- The fast path of `doPrintf` for a lower-case verb right after the flags
when an operand is left: the operand, the verb, and the format after it. -/
def fastVerb (a : List Arg) (argNum : Nat) (afterFlags : List Char) :
    Option (Arg × Char × List Char) :=
  match afterFlags with
  | c :: cs =>
    if 'a' ≤ c ∧ c ≤ 'z' then (a.get? argNum).map (fun arg => (arg, c, cs)) else none
  | [] => none

/-- The end of `doPrintf`: the operands left over are reported, unless an
index was used. -/
def finishPrintf (a : List Arg) (out : List Char) (argNum : Nat) (reordered : Bool) :
    List Char :=
  if !reordered ∧ argNum < a.length then out ++ extraArgs (a.drop argNum) else out

/-- The method `doPrintf`; `fuel` bounds the number of directives and runs
of plain text. -/
def doPrintf (a : List Arg) : Nat → List Char → List Char → Nat → Bool → List Char
  | 0, _, out, _, _ => out
  | fuel + 1, format, out, argNum, reordered =>
    let out := out ++ format.takeWhile (· ≠ '%')
    match format.dropWhile (· ≠ '%') with
    | [] => finishPrintf a out argNum reordered
    | _ :: rest =>
      match fastVerb a argNum (skipFlags rest) with
      | some (arg, c, cs) => doPrintf a fuel cs (out ++ printArg arg c) (argNum + 1) reordered
      | none =>
        let r := readDirective a
          { out := out, argNum := argNum, afterIndex := false, goodArgNum := true,
            reordered := reordered }
          (skipFlags rest)
        match r.2 with
        | [] => finishPrintf a (r.1.out ++ "%!(NOVERB)".data) r.1.argNum r.1.reordered
        | verb :: rest =>
          let d := applyVerb a r.1 verb
          doPrintf a fuel rest d.out d.argNum d.reordered

/-- The function `fmt.Sprintf` for operands of the types of `Arg`. -/
def Sprintf (format : String) (a : List Arg) : String :=
  String.mk (doPrintf a (format.length + 1) format.data [] 0 false)

end fmt

/-! ### encoding/json -/

namespace json

/-- JSON white space. -/
def isSpace (c : Char) : Bool :=
  decide (c = ' ' ∨ c = '\t' ∨ c = '\n' ∨ c = '\r')

/-- Drops leading white space. -/
def skipSpace : List Char → List Char
  | [] => []
  | c :: cs => if isSpace c then skipSpace cs else c :: cs

/-- The value of a hexadecimal digit. -/
def hexVal (c : Char) : Option Nat :=
  if '0' ≤ c ∧ c ≤ '9' then some (c.toNat - '0'.toNat)
  else if 'a' ≤ c ∧ c ≤ 'f' then some (c.toNat - 'a'.toNat + 10)
  else if 'A' ≤ c ∧ c ≤ 'F' then some (c.toNat - 'A'.toNat + 10)
  else none

/-- The function `getu4` after the backslash and the `u`: four hexadecimal
digits. -/
def getu4 (cs : List Char) : Option (Nat × List Char) :=
  match cs with
  | a :: b :: c :: d :: rest =>
    match hexVal a, hexVal b, hexVal c, hexVal d with
    | some a, some b, some c, some d => some (((a * 16 + b) * 16 + c) * 16 + d, rest)
    | _, _, _, _ => none
  | _ => none

/-- The low half of a surrogate pair written `\uXXXX` at the head of `cs`. -/
def lowSurrogate (cs : List Char) : Option (Nat × List Char) :=
  match cs with
  | b :: u :: rest =>
    if b = '\\' ∧ u = 'u' then
      match getu4 rest with
      | some (lo, rest) => if 0xDC00 ≤ lo ∧ lo < 0xE000 then some (lo, rest) else none
      | none => none
    else none
  | _ => none

/-- The characters of a string literal after its opening quote, up to the
closing quote, with the escapes replaced; `none` for a literal that is not
well formed. -/
def parseString : Nat → List Char → List Char → Option (List Char × List Char)
  | 0, _, _ => none
  | _ + 1, [], _ => none
  | fuel + 1, c :: cs, acc =>
    if c = '"' then some (acc.reverse, cs)
    else if c = '\\' then
      match cs with
      | [] => none
      | e :: rest =>
        if e = '"' ∨ e = '\\' ∨ e = '/' then parseString fuel rest (e :: acc)
        else if e = 'b' then parseString fuel rest ('\x08' :: acc)
        else if e = 'f' then parseString fuel rest ('\x0c' :: acc)
        else if e = 'n' then parseString fuel rest ('\n' :: acc)
        else if e = 'r' then parseString fuel rest ('\r' :: acc)
        else if e = 't' then parseString fuel rest ('\t' :: acc)
        else if e = 'u' then
          match getu4 rest with
          | none => none
          | some (rr, rest) =>
            if 0xD800 ≤ rr ∧ rr < 0xE000 then
              match (if rr < 0xDC00 then lowSurrogate rest else none) with
              | some (lo, rest) =>
                parseString fuel rest
                  (Char.ofNat ((rr - 0xD800) * 0x400 + (lo - 0xDC00) + 0x10000) :: acc)
              | none => parseString fuel rest (Char.ofNat 0xFFFD :: acc)
            else parseString fuel rest (Char.ofNat rr :: acc)
        else none
    else if c.toNat < 0x20 then none
    else parseString fuel cs (c :: acc)

/-- The longest run of decimal digits at the head. -/
def takeDigits : List Char → List Char × List Char
  | [] => ([], [])
  | c :: cs =>
    if '0' ≤ c ∧ c ≤ '9' then
      let r := takeDigits cs
      (c :: r.1, r.2)
    else ([], c :: cs)

/-- The exponent part of a number literal, if any. -/
def parseExponent (lit rest : List Char) : Option (List Char × List Char) :=
  match rest with
  | e :: r1 =>
    if e = 'e' ∨ e = 'E' then
      let signed : List Char × List Char :=
        match r1 with
        | s :: r2 => if s = '+' ∨ s = '-' then ([s], r2) else ([], r1)
        | [] => ([], r1)
      let ds := takeDigits signed.2
      if ds.1 = [] then none else some (lit ++ e :: signed.1 ++ ds.1, ds.2)
    else some (lit, rest)
  | [] => some (lit, rest)

/-- The fraction part of a number literal, if any, then the exponent. -/
def parseFraction (lit rest : List Char) : Option (List Char × List Char) :=
  match rest with
  | p :: r1 =>
    if p = '.' then
      let ds := takeDigits r1
      if ds.1 = [] then none else parseExponent (lit ++ p :: ds.1) ds.2
    else parseExponent lit rest
  | [] => some (lit, rest)

/-- A number literal at the head: its text and what follows. -/
def parseNumber (cs : List Char) : Option (List Char × List Char) :=
  let signed : List Char × List Char :=
    match cs with
    | s :: r => if s = '-' then ([s], r) else ([], cs)
    | [] => ([], cs)
  match signed.2 with
  | [] => none
  | c :: r =>
    if c = '0' then parseFraction (signed.1 ++ [c]) r
    else if '1' ≤ c ∧ c ≤ '9' then
      let ds := takeDigits r
      parseFraction (signed.1 ++ c :: ds.1) ds.2
    else none

/-- Reads the word `w` at the head. -/
def expectWord (w cs : List Char) : Option (List Char) :=
  if cs.take w.length = w then some (cs.drop w.length) else none

mutual

/-- A JSON value at the head, after optional white space: the value and what
follows it. -/
def parseValue : Nat → List Char → Option (JSON × List Char)
  | 0, _ => none
  | fuel + 1, cs =>
    match skipSpace cs with
    | [] => none
    | c :: r =>
      if c = '{' then
        match skipSpace r with
        | [] => none
        | d :: r2 => if d = '}' then some (.obj [], r2) else parseMembers fuel (d :: r2) []
      else if c = '[' then
        match skipSpace r with
        | [] => none
        | d :: r2 => if d = ']' then some (.arr [], r2) else parseElements fuel (d :: r2) []
      else if c = '"' then
        (parseString (r.length + 1) r []).map (fun s => (.str (String.mk s.1), s.2))
      else if c = 't' then (expectWord "rue".data r).map (fun r => (.bool true, r))
      else if c = 'f' then (expectWord "alse".data r).map (fun r => (.bool false, r))
      else if c = 'n' then (expectWord "ull".data r).map (fun r => (.null, r))
      else (parseNumber (c :: r)).map (fun n => (.num (String.mk n.1), n.2))

/-- The members of an object from the first key on, up to the closing
brace. -/
def parseMembers : Nat → List Char → List (String × JSON) → Option (JSON × List Char)
  | 0, _, _ => none
  | fuel + 1, cs, acc =>
    match cs with
    | [] => none
    | q :: r =>
      if q ≠ '"' then none
      else
        match parseString (r.length + 1) r [] with
        | none => none
        | some (key, r1) =>
          match skipSpace r1 with
          | [] => none
          | colon :: r2 =>
            if colon ≠ ':' then none
            else
              match parseValue fuel r2 with
              | none => none
              | some (v, r3) =>
                match skipSpace r3 with
                | [] => none
                | d :: r4 =>
                  if d = '}' then some (.obj (acc ++ [(String.mk key, v)]), r4)
                  else if d = ',' then
                    parseMembers fuel (skipSpace r4) (acc ++ [(String.mk key, v)])
                  else none

/-- The elements of an array from the first one on, up to the closing
bracket. -/
def parseElements : Nat → List Char → List JSON → Option (JSON × List Char)
  | 0, _, _ => none
  | fuel + 1, cs, acc =>
    match parseValue fuel cs with
    | none => none
    | some (v, r1) =>
      match skipSpace r1 with
      | [] => none
      | d :: r2 =>
        if d = ']' then some (.arr (acc ++ [v]), r2)
        else if d = ',' then parseElements fuel r2 (acc ++ [v])
        else none

end

/-- The first JSON value of a text and what follows it. -/
def parse (s : String) : Option (JSON × List Char) :=
  parseValue (2 * s.length + 2) s.data

end json

namespace json

/-- What went wrong when a JSON value was stored into a field: a type
mismatch, which the decoder records and passes over, or the error of an
`UnmarshalJSON` method, which ends the decoding. -/
inductive Fault where
  | mismatch (err : Error)
  | abort (err : Error)

/-- The kind of a JSON value as `UnmarshalTypeError` names it. -/
def kindName : JSON → String
  | .null => "null"
  | .bool _ => "bool"
  | .num lit => "number " ++ lit
  | .str _ => "string"
  | .arr _ => "array"
  | .obj _ => "object"

/-- An `UnmarshalTypeError`, its message abridged. -/
def typeError (v : JSON) (goType : String) : Fault :=
  .mismatch ⟨"json: cannot unmarshal " ++ kindName v ++ " into Go value of type " ++ goType⟩

/-- Stores into a `string`. -/
def storeString (v : JSON) (old : String) : String × Option Fault :=
  match v with
  | .str s => (s, none)
  | .null => (old, none)
  | v => (old, some (typeError v "string"))

/-- Stores into an `int`: the literal must be accepted by `ParseInt`. -/
def storeInt (v : JSON) (old : Int) : Int × Option Fault :=
  match v with
  | .num lit =>
    match strconv.ParseInt lit.data 64 with
    | (n, none) => (n, none)
    | _ => (old, some (typeError v "int"))
  | .null => (old, none)
  | v => (old, some (typeError v "int"))

/-- Stores into a `bool`. -/
def storeBool (v : JSON) (old : Bool) : Bool × Option Fault :=
  match v with
  | .bool b => (b, none)
  | .null => (old, none)
  | v => (old, some (typeError v "bool"))

/-- Stores into an `interface{}`: `null` gives nil, another value is kept as
it was read (the conversion of numbers to `float64` is not carried out). -/
def storeAny (v : JSON) : Option JSON :=
  match v with
  | .null => none
  | v => some v

/-- Stores into a `struct{}`: an object has no field to fill. -/
def storeEmptyStruct (v : JSON) : Option Fault :=
  match v with
  | .obj _ => none
  | .null => none
  | v => some (typeError v "struct {}")

/-- Stores into one element of a `[]string`. -/
def storeElement (v : JSON) : String × Option Fault :=
  storeString v ""

/-- The first fault of a list of stores. -/
def firstFault : List (Option Fault) → Option Fault
  | [] => none
  | some f :: _ => some f
  | none :: rest => firstFault rest

/-- Stores into a `[]string` that is nil or empty before, as in the zero
`ErrorResponse` that `GetProduct` passes. -/
def storeStrings (v : JSON) (old : List String) : List String × Option Fault :=
  match v with
  | .arr xs => ((xs.map storeElement).map (·.1), firstFault ((xs.map storeElement).map (·.2)))
  | .null => ([], none)
  | v => (old, some (typeError v "[]string"))

/-- Two decimal digits at the head, as a number. -/
def twoDigits (cs : List Char) : Option (Nat × List Char) :=
  match cs with
  | a :: b :: rest =>
    if ('0' ≤ a ∧ a ≤ '9') ∧ ('0' ≤ b ∧ b ≤ '9') then
      some ((a.toNat - '0'.toNat) * 10 + (b.toNat - '0'.toNat), rest)
    else none
  | _ => none

/-- The number of days of a month. -/
def daysIn (year month : Nat) : Nat :=
  if month = 2 then
    if year % 4 = 0 ∧ (year % 100 ≠ 0 ∨ year % 400 = 0) then 29 else 28
  else if month = 4 ∨ month = 6 ∨ month = 9 ∨ month = 11 then 30
  else 31

/-- The zone of an RFC 3339 time: `Z`, or a sign, hours, a colon and
minutes; nothing may follow. -/
def isZone (cs : List Char) : Bool :=
  match cs with
  | [z] => decide (z = 'Z')
  | s :: rest =>
    if s = '+' ∨ s = '-' then
      match twoDigits rest with
      | some (h, c :: rest) =>
        if c = ':' then
          match twoDigits rest with
          | some (m, []) => decide (h ≤ 23 ∧ m ≤ 59)
          | _ => false
        else false
      | _ => false
    else false
  | [] => false

/-- The optional fraction of the seconds, then the zone. -/
def isFractionZone (cs : List Char) : Bool :=
  match cs with
  | p :: rest =>
    if p = '.' ∨ p = ',' then
      let ds := takeDigits rest
      !ds.1.isEmpty && isZone ds.2
    else isZone cs
  | [] => false

/-- Whether a text is a time in the layout `time.RFC3339`, as
`Time.UnmarshalJSON` requires of a JSON string: date, `T`, time of day, an
optional fraction of the second, and the zone. -/
def isRFC3339 (cs : List Char) : Bool :=
  match twoDigits cs with
  | some (y1, rest) =>
    match twoDigits rest with
    | some (y2, d1 :: rest) =>
      match twoDigits rest with
      | some (month, d2 :: rest) =>
        match twoDigits rest with
        | some (day, t :: rest) =>
          match twoDigits rest with
          | some (hour, c1 :: rest) =>
            match twoDigits rest with
            | some (minute, c2 :: rest) =>
              match twoDigits rest with
              | some (second, rest) =>
                decide (d1 = '-' ∧ d2 = '-' ∧ t = 'T' ∧ c1 = ':' ∧ c2 = ':') &&
                decide (1 ≤ month ∧ month ≤ 12 ∧ 1 ≤ day ∧
                  day ≤ daysIn (y1 * 100 + y2) month) &&
                decide (hour ≤ 23 ∧ minute ≤ 59 ∧ second ≤ 59) &&
                isFractionZone rest
              | none => false
            | _ => false
          | _ => false
        | _ => false
      | _ => false
    | _ => false
  | none => false

/-- Stores into a `time.Time` through `Time.UnmarshalJSON`: `null` is passed
over, a string in the RFC 3339 layout is taken, anything else is an error
that ends the decoding. -/
def storeTime (v : JSON) (old : Time) : Time × Option Fault :=
  match v with
  | .null => (old, none)
  | .str s =>
    if isRFC3339 s.data then (⟨some s⟩, none)
    else (old, some (.abort ⟨"parsing time: cannot parse " ++ s⟩))
  | _ => (old, some (.abort ⟨"parsing time: not a JSON string"⟩))

/-- The folding under which a key of an object names a field: letters of
ASCII without case, with the Kelvin sign for `k` and the long s for `s`. -/
def foldChar (c : Char) : Char :=
  if c = Char.ofNat 0x212A then 'k'
  else if c = Char.ofNat 0x17F then 's'
  else if 'A' ≤ c ∧ c ≤ 'Z' then Char.ofNat (c.toNat + 32)
  else c

/-- Whether the key of a member names the field with the JSON name `name`.
The names of one struct stay distinct when folded, so the exact match the
decoder tries first picks the same field. -/
def sameField (key name : String) : Bool :=
  key.data.map foldChar = name.data.map foldChar

/-- The members of an object stored one after the other through `setField`;
`saved` is the first type mismatch so far. -/
def decodeMembers {σ : Type} (setField : String → JSON → σ → σ × Option Fault) :
    List (String × JSON) → σ → Option Error → σ × Option Error
  | [], s, saved => (s, saved)
  | (k, v) :: rest, s, saved =>
    match setField k v s with
    | (s, none) => decodeMembers setField rest s saved
    | (s, some (.abort err)) => (s, some err)
    | (s, some (.mismatch err)) =>
      decodeMembers setField rest s (match saved with | some e => some e | none => some err)

/-- A JSON value stored into a struct: an object fills the fields, `null` is
passed over, another value is a type mismatch. -/
def storeStruct {σ : Type} (setField : String → JSON → σ → σ × Option Fault)
    (goType : String) (v : JSON) (s : σ) : σ × Option Error :=
  match v with
  | .obj kvs => decodeMembers setField kvs s none
  | .null => (s, none)
  | v =>
    (s, some ⟨"json: cannot unmarshal " ++ kindName v ++ " into Go value of type " ++ goType⟩)

/-- The method `Decoder.Decode` on a fresh decoder over `body`: the first
JSON value of the body is stored, what follows it is not looked at; a body
without a well-formed first value leaves the target as it was. -/
def Decode {σ : Type} (store : JSON → σ → σ × Option Error) (body : String) (s : σ) :
    σ × Option Error :=
  if skipSpace body.data = [] then (s, some ⟨"EOF"⟩)
  else
    match parse body with
    | none => (s, some ⟨"json: invalid or incomplete value"⟩)
    | some (v, _) => store v s

/-- The function `json.Unmarshal`: the data must be one well-formed JSON
value with nothing but white space around it, else the target is left as it
was. -/
def Unmarshal {σ : Type} (store : JSON → σ → σ × Option Error) (data : String) (s : σ) :
    σ × Option Error :=
  match parse data with
  | none => (s, some ⟨"json: invalid or incomplete value"⟩)
  | some (v, rest) =>
    if skipSpace rest = [] then store v s
    else (s, some ⟨"json: invalid character after top-level value"⟩)

end json

/-- The member `key: v` of a JSON object stored into a `selly.Webhook`, by
the `json` tags of its fields; a key that names no field is ignored. -/
def setWebhookField (key : String) (v : JSON) (w : Webhook) : Webhook × Option json.Fault :=
  if json.sameField key "id" then
    let r := json.storeString v w.ID; ({ w with ID := r.1 }, r.2)
  else if json.sameField key "product_id" then
    let r := json.storeString v w.ProductID; ({ w with ProductID := r.1 }, r.2)
  else if json.sameField key "email" then
    let r := json.storeString v w.Email; ({ w with Email := r.1 }, r.2)
  else if json.sameField key "ip_address" then
    let r := json.storeString v w.IPAddress; ({ w with IPAddress := r.1 }, r.2)
  else if json.sameField key "country_code" then
    let r := json.storeString v w.CountryCode; ({ w with CountryCode := r.1 }, r.2)
  else if json.sameField key "user_agent" then
    let r := json.storeString v w.UserAgent; ({ w with UserAgent := r.1 }, r.2)
  else if json.sameField key "value" then
    let r := json.storeString v w.Value; ({ w with Value := r.1 }, r.2)
  else if json.sameField key "currency" then
    let r := json.storeString v w.Currency; ({ w with Currency := r.1 }, r.2)
  else if json.sameField key "gateway" then
    let r := json.storeString v w.Gateway; ({ w with Gateway := r.1 }, r.2)
  else if json.sameField key "risk_level" then
    let r := json.storeInt v w.RiskLevel; ({ w with RiskLevel := r.1 }, r.2)
  else if json.sameField key "status" then
    let r := json.storeInt v w.Status; ({ w with Status := r.1 }, r.2)
  else if json.sameField key "delivered" then
    let r := json.storeString v w.Delivered; ({ w with Delivered := r.1 }, r.2)
  else if json.sameField key "crypto_value" then
    ({ w with CryptoValue := json.storeAny v }, none)
  else if json.sameField key "crypto_address" then
    ({ w with CryptoAddress := json.storeAny v }, none)
  else if json.sameField key "referral" then
    let r := json.storeString v w.Referral; ({ w with Referral := r.1 }, r.2)
  else if json.sameField key "webhook_type" then
    let r := json.storeInt v w.WebhookType; ({ w with WebhookType := r.1 }, r.2)
  else if json.sameField key "created_at" then
    let r := json.storeString v w.CreatedAt; ({ w with CreatedAt := r.1 }, r.2)
  else if json.sameField key "updated_at" then
    let r := json.storeString v w.UpdatedAt; ({ w with UpdatedAt := r.1 }, r.2)
  else (w, none)

/-- The member `key: v` of a JSON object stored into a `selly.Product`. -/
def setProductField (key : String) (v : JSON) (p : Product) : Product × Option json.Fault :=
  if json.sameField key "id" then
    let r := json.storeString v p.ID; ({ p with ID := r.1 }, r.2)
  else if json.sameField key "title" then
    let r := json.storeString v p.Title; ({ p with Title := r.1 }, r.2)
  else if json.sameField key "description" then
    let r := json.storeString v p.Description; ({ p with Description := r.1 }, r.2)
  else if json.sameField key "stock" then
    let r := json.storeInt v p.Stock; ({ p with Stock := r.1 }, r.2)
  else if json.sameField key "price" then
    let r := json.storeString v p.Price; ({ p with Price := r.1 }, r.2)
  else if json.sameField key "currency" then
    let r := json.storeString v p.Currency; ({ p with Currency := r.1 }, r.2)
  else if json.sameField key "product_type" then
    let r := json.storeInt v p.ProductType; ({ p with ProductType := r.1 }, r.2)
  else if json.sameField key "bitcoin" then
    let r := json.storeBool v p.Bitcoin; ({ p with Bitcoin := r.1 }, r.2)
  else if json.sameField key "paypal" then
    let r := json.storeBool v p.Paypal; ({ p with Paypal := r.1 }, r.2)
  else if json.sameField key "stripe" then
    let r := json.storeBool v p.Stripe; ({ p with Stripe := r.1 }, r.2)
  else if json.sameField key "litecoin" then
    let r := json.storeBool v p.Litecoin; ({ p with Litecoin := r.1 }, r.2)
  else if json.sameField key "dash" then
    let r := json.storeBool v p.Dash; ({ p with Dash := r.1 }, r.2)
  else if json.sameField key "ethereum" then
    let r := json.storeBool v p.Ethereum; ({ p with Ethereum := r.1 }, r.2)
  else if json.sameField key "perfect_money" then
    let r := json.storeBool v p.PerfectMoney; ({ p with PerfectMoney := r.1 }, r.2)
  else if json.sameField key "bitcoin_cash" then
    let r := json.storeBool v p.BitcoinCash; ({ p with BitcoinCash := r.1 }, r.2)
  else if json.sameField key "ripple" then
    let r := json.storeBool v p.Ripple; ({ p with Ripple := r.1 }, r.2)
  else if json.sameField key "private" then
    let r := json.storeBool v p.Private; ({ p with Private := r.1 }, r.2)
  else if json.sameField key "unlisted" then
    let r := json.storeBool v p.Unlisted; ({ p with Unlisted := r.1 }, r.2)
  else if json.sameField key "seller_note" then
    let r := json.storeString v p.SellerNote; ({ p with SellerNote := r.1 }, r.2)
  else if json.sameField key "maximum_quantity" then
    ({ p with MaximumQuantity := json.storeAny v }, none)
  else if json.sameField key "minimum_quantity" then
    let r := json.storeInt v p.MinimumQuantity; ({ p with MinimumQuantity := r.1 }, r.2)
  else if json.sameField key "custom" then
    (p, json.storeEmptyStruct v)
  else if json.sameField key "created_at" then
    let r := json.storeTime v p.CreatedAt; ({ p with CreatedAt := r.1 }, r.2)
  else if json.sameField key "updated_at" then
    let r := json.storeTime v p.UpdatedAt; ({ p with UpdatedAt := r.1 }, r.2)
  else (p, none)

/-- The member `key: v` of the object under `errors` stored into the field
`Errors` of an `ErrorResponse`. -/
def setErrorsField (key : String) (v : JSON) (e : ErrorResponse) :
    ErrorResponse × Option json.Fault :=
  if json.sameField key "title" then
    let r := json.storeStrings v e.Title; ({ e with Title := r.1 }, r.2)
  else (e, none)

/-- The member `key: v` of a JSON object stored into an `ErrorResponse`. -/
def setErrorResponseField (key : String) (v : JSON) (e : ErrorResponse) :
    ErrorResponse × Option json.Fault :=
  if json.sameField key "message" then
    let r := json.storeString v e.Message; ({ e with Message := r.1 }, r.2)
  else if json.sameField key "errors" then
    let r := json.storeStruct setErrorsField "struct" v e
    (r.1, r.2.map json.Fault.mismatch)
  else (e, none)

/-! ### kr/pretty -/

namespace pretty

/-- A string between double quotes, with the backslash, the double quote, the
newline, the carriage return and the tab escaped. -/
def quote (s : String) : String :=
  let esc (c : Char) : List Char :=
    if c = '"' then ['\\', '"']
    else if c = '\\' then ['\\', '\\']
    else if c = '\n' then ['\\', 'n']
    else if c = '\r' then ['\\', 'r']
    else if c = '\t' then ['\\', 't']
    else [c]
  String.mk ('"' :: (s.data.map esc).flatten ++ ['"'])

/-- The value of an `interface{}` field: `nil`, or the value it holds with
its Go type; a slice or a map is shown by its type alone. -/
def showAny : Option JSON → String
  | none => "nil"
  | some (.str s) => quote s
  | some (.num lit) => "float64(" ++ lit ++ ")"
  | some (.bool b) => if b then "bool(true)" else "bool(false)"
  | some (.arr _) => "[]interface \x7b\x7d\x7b...\x7d"
  | some (.obj _) => "map[string]interface \x7b\x7d\x7b...\x7d"
  | some .null => "nil"

/-- One line of an expanded struct: the field name, padded to the column of
the values, the value and a comma. -/
def fieldLine (name value : String) : String :=
  "    " ++ name ++ ":" ++ String.mk (List.replicate (14 - name.length) ' ') ++ value ++ ",\n"

/-- Whether a `selly.Webhook` is its zero value. -/
def isZero (w : Webhook) : Bool :=
  w.ID = "" && w.ProductID = "" && w.Email = "" && w.IPAddress = "" &&
  w.CountryCode = "" && w.UserAgent = "" && w.Value = "" && w.Currency = "" &&
  w.Gateway = "" && w.RiskLevel = 0 && w.Status = 0 && w.Delivered = "" &&
  w.CryptoValue.isNone && w.CryptoAddress.isNone && w.Referral = "" &&
  w.WebhookType = 0 && w.CreatedAt = "" && w.UpdatedAt = ""

/-- The function `pretty.Sprint` on a `selly.Webhook`: the type name and
braces for the zero value, else one line for each field. -/
def Sprint (w : Webhook) : String :=
  if isZero w then "selly.Webhook\x7b\x7d"
  else
    "selly.Webhook\x7b\n" ++
    fieldLine "ID" (quote w.ID) ++
    fieldLine "ProductID" (quote w.ProductID) ++
    fieldLine "Email" (quote w.Email) ++
    fieldLine "IPAddress" (quote w.IPAddress) ++
    fieldLine "CountryCode" (quote w.CountryCode) ++
    fieldLine "UserAgent" (quote w.UserAgent) ++
    fieldLine "Value" (quote w.Value) ++
    fieldLine "Currency" (quote w.Currency) ++
    fieldLine "Gateway" (quote w.Gateway) ++
    fieldLine "RiskLevel" (String.mk (fmt.decimal w.RiskLevel)) ++
    fieldLine "Status" (String.mk (fmt.decimal w.Status)) ++
    fieldLine "Delivered" (quote w.Delivered) ++
    fieldLine "CryptoValue" (showAny w.CryptoValue) ++
    fieldLine "CryptoAddress" (showAny w.CryptoAddress) ++
    fieldLine "Referral" (quote w.Referral) ++
    fieldLine "WebhookType" (String.mk (fmt.decimal w.WebhookType)) ++
    fieldLine "CreatedAt" (quote w.CreatedAt) ++
    fieldLine "UpdatedAt" (quote w.UpdatedAt) ++
    "\x7d"

end pretty

/-! ### The reference world -/

/-- The reference instance of `World`: the models above for the packages,
and a network on which every call succeeds; `updates` are the updates that
arrive on the update channel. -/
def goWorld (updates : List Update) : World :=
  { decodeWebhook := json.Decode (json.storeStruct setWebhookField "selly.Webhook")
    unmarshalProduct := json.Unmarshal (json.storeStruct setProductField "selly.Product")
    unmarshalErrorResponse :=
      json.Unmarshal (json.storeStruct setErrorResponseField "selly.ErrorResponse")
    prettySprint := pretty.Sprint
    Sprintf := fmt.Sprintf
    NewBotAPI := fun token => .ok ⟨token⟩
    Send := fun _ _ => none
    GetChat := fun _ => .ok ⟨-1001⟩
    GetUpdatesChan := .ok updates
    DeleteMessage := fun _ _ => none
    GetBytes := fun _ _ => .error ⟨"no such host"⟩ }

/-- The reference world with a server behind the HTTP client that answers
every request with `body`. -/
def goWorldServing (body : String) : World :=
  { goWorld [] with GetBytes := fun _ _ => .ok body }

/-! ## Observations and sample inputs -/

/-- The messages sent to Telegram among the events, in order: the chat id and
the text of each. -/
def sentMessages : List Event → List (Int × String)
  | [] => []
  | .send chat text :: rest => (chat, text) :: sentMessages rest
  | _ :: rest => sentMessages rest

/-- Whether the long-poll update stream was opened. -/
def openedStream : List Event → Bool
  | [] => false
  | .getUpdatesChan _ :: _ => true
  | _ :: rest => openedStream rest

/-- A bot after a completed `LaunchTelegramBot`: the Telegram client is set
and the chat id is 42; the denylist is the nil map `main` leaves. -/
def readyBot : Bot :=
  { tokenTG := "123:abc", tokenSelly := "", emailSelly := "", secret := "s3cret",
    tgbot := some ⟨"123:abc"⟩, tgchatid := 42, badguys := none, channel := "" }

/-- A request to `/webhook?secret=...` from `addr` with the body `body`. -/
def webhookRequest (addr secret body : String) : Request :=
  { RemoteAddr := addr, Host := "example.org", Query := [("secret", secret)], Body := body }

/-- An environment with `SECRET` and `TELECHAN` set. -/
def envOf (secret telechan : String) : Environ :=
  fun k => if k = "SECRET" then secret else if k = "TELECHAN" then telechan else ""

/-- An update that carries a new message with the text `text` in the chat
`chat`. -/
def messageUpdate (id chat : Int) (text : String) : Update :=
  { UpdateID := id, Message := some { MessageID := id, Chat := some ⟨chat⟩, Text := text } }

/-- Whether a character right after a percent sign is taken as the verb of
the directive: it is no flag, no digit, none of `[`, `*`, `.`, and not the
second percent sign of `%%`. -/
def fmt.startsVerb (c : Char) : Bool :=
  decide (c ≠ '#' ∧ c ≠ '+' ∧ c ≠ '-' ∧ c ≠ ' ' ∧ ¬ ('0' ≤ c ∧ c ≤ '9') ∧
    c ≠ '[' ∧ c ≠ '*' ∧ c ≠ '.' ∧ c ≠ '%')

theorem foldl_decStep_ge (cs : List Char) (n : Nat) :
    n ≤ cs.foldl (fun n c => n * 10 + (c.toNat - '0'.toNat)) n := by
  induction cs generalizing n with
  | nil => simp
  | cons c cs ih =>
    simp only [List.foldl_cons]
    have := ih (n * 10 + (c.toNat - '0'.toNat))
    omega

theorem digit_toNat_le (c : Char) (h : '0' ≤ c ∧ c ≤ '9') : c.toNat - '0'.toNat ≤ 9 := by
  obtain ⟨_, h2⟩ := h
  have : c.toNat ≤ '9'.toNat := h2
  have h9 : '9'.toNat = 57 := by decide
  have h0 : '0'.toNat = 48 := by decide
  omega

theorem parseUintLoop_cases (cs : List Char) (n : Nat) (hn : n ≤ 2 ^ 64 - 1) :
    let v := cs.foldl (fun n c => n * 10 + (c.toNat - '0'.toNat)) n
    let all := cs.all (fun c => decide ('0' ≤ c ∧ c ≤ '9'))
    (all = true ∧ v ≤ 2 ^ 64 - 1 ∧ strconv.parseUintLoop (2 ^ 64 - 1) cs n = (v, none)) ∨
    (¬ (all = true ∧ v ≤ 2 ^ 64 - 1) ∧
      strconv.parseUintLoop (2 ^ 64 - 1) cs n = (2 ^ 64 - 1, some .ErrRange)) ∨
    (all = false ∧ strconv.parseUintLoop (2 ^ 64 - 1) cs n = (0, some .ErrSyntax)) := by
  induction cs generalizing n with
  | nil => exact Or.inl ⟨by simp, by simpa using hn, by simp [strconv.parseUintLoop]⟩
  | cons c cs ih =>
    by_cases hc : '0' ≤ c ∧ c ≤ '9'
    · have hd := digit_toNat_le c hc
      have hge := foldl_decStep_ge cs (n * 10 + (c.toNat - '0'.toNat))
      simp only [List.foldl_cons, List.all_cons, hc, decide_True, Bool.true_and,
        strconv.parseUintLoop, and_self, if_true, strconv.maxUint64]
      by_cases h1 : n ≥ (2 ^ 64 - 1) / 10 + 1
      · right; left
        simp only [h1, if_true, and_true]
        intro h
        have := h.2
        omega
      · simp only [h1, if_false]
        by_cases h2 : n * 10 + (c.toNat - '0'.toNat) < 2 ^ 64
        · have hmod : (n * 10 + (c.toNat - '0'.toNat)) % 2 ^ 64
              = n * 10 + (c.toNat - '0'.toNat) := Nat.mod_eq_of_lt h2
          rw [hmod]
          have h3 : ¬ (n * 10 + (c.toNat - '0'.toNat) < n * 10 ∨
              n * 10 + (c.toNat - '0'.toNat) > 2 ^ 64 - 1) := by omega
          simp only [h3, if_false]
          exact ih (n * 10 + (c.toNat - '0'.toNat)) (by omega)
        · right; left
          have hmod : (n * 10 + (c.toNat - '0'.toNat)) % 2 ^ 64
              = n * 10 + (c.toNat - '0'.toNat) - 2 ^ 64 := by
            rw [Nat.mod_eq_sub_mod (by omega)]
            exact Nat.mod_eq_of_lt (by omega)
          rw [hmod]
          have h3 : (n * 10 + (c.toNat - '0'.toNat) - 2 ^ 64 < n * 10 ∨
              n * 10 + (c.toNat - '0'.toNat) - 2 ^ 64 > 2 ^ 64 - 1) := by omega
          simp only [h3, if_true, and_true]
          intro h
          have := h.2
          omega
    · right; right
      simp [strconv.parseUintLoop, hc]


theorem ParseUint_cases (ds : List Char) :
    (isBareNumeric ds = true ∧ decimalValue ds ≤ 2 ^ 64 - 1 ∧
      strconv.ParseUint ds 0 = (decimalValue ds, none)) ∨
    (¬ (isBareNumeric ds = true ∧ decimalValue ds ≤ 2 ^ 64 - 1) ∧
      strconv.ParseUint ds 0 = (2 ^ 64 - 1, some .ErrRange)) ∨
    (isBareNumeric ds = false ∧ strconv.ParseUint ds 0 = (0, some .ErrSyntax)) := by
  cases ds with
  | nil => right; right; simp [isBareNumeric, strconv.ParseUint]
  | cons c cs =>
    have h := parseUintLoop_cases (c :: cs) 0 (by norm_num)
    have hU : strconv.ParseUint (c :: cs) 0
        = strconv.parseUintLoop (2 ^ 64 - 1) (c :: cs) 0 := by
      simp [strconv.ParseUint, strconv.IntSize]
    have hB : isBareNumeric (c :: cs)
        = (c :: cs).all (fun c => decide ('0' ≤ c ∧ c ≤ '9')) := by
      simp [isBareNumeric]
    rw [hU, hB]
    exact h

theorem Atoi_ok_iff (s : List Char) :
    (strconv.Atoi s).2 = none ↔ isInt64Literal s = true := by
  cases s with
  | nil => simp [strconv.Atoi, strconv.ParseInt, isInt64Literal]
  | cons c cs =>
    by_cases hm : c = '-'
    · subst hm
      rcases ParseUint_cases cs with ⟨hb, hv, hp⟩ | ⟨hn, hp⟩ | ⟨hb, hp⟩
      · simp only [strconv.Atoi, strconv.ParseInt, isInt64Literal, hp, hb, if_true,
          or_true, strconv.IntSize, Bool.true_and, decide_eq_true_eq]
        split_ifs with h1 h2 <;> norm_num at * <;> omega
      · simp only [strconv.Atoi, strconv.ParseInt, isInt64Literal, hp, if_true,
          or_true, strconv.IntSize, Bool.and_eq_true, decide_eq_true_eq]
        constructor
        · intro h; simp at h
        · intro h; exact absurd ⟨h.1, by omega⟩ hn
      · simp [strconv.Atoi, strconv.ParseInt, isInt64Literal, hp, hb]
    · by_cases hp' : c = '+'
      · subst hp'
        rcases ParseUint_cases cs with ⟨hb, hv, hp⟩ | ⟨hn, hp⟩ | ⟨hb, hp⟩
        · simp only [strconv.Atoi, strconv.ParseInt, isInt64Literal, hp, hb, hm, if_true,
            true_or, strconv.IntSize, Bool.true_and, decide_eq_true_eq]
          split_ifs with h1 h2 <;> norm_num at * <;> omega
        · simp only [strconv.Atoi, strconv.ParseInt, isInt64Literal, hp, hm, if_true,
            true_or, strconv.IntSize, Bool.and_eq_true, decide_eq_true_eq]
          constructor
          · intro h; simp at h
          · intro h; simp at h; exact absurd ⟨h.1, by omega⟩ hn
        · simp [strconv.Atoi, strconv.ParseInt, isInt64Literal, hp, hb]
      · rcases ParseUint_cases (c :: cs) with ⟨hb, hv, hp⟩ | ⟨hn, hp⟩ | ⟨hb, hp⟩
        · simp only [strconv.Atoi, strconv.ParseInt, isInt64Literal, hp, hb, hm, hp',
            if_false, or_self, strconv.IntSize, Bool.true_and, decide_eq_true_eq]
          split_ifs with h1 h2 <;> norm_num at * <;> omega
        · simp only [strconv.Atoi, strconv.ParseInt, isInt64Literal, hp, hm, hp',
            if_false, or_self, strconv.IntSize, Bool.and_eq_true, decide_eq_true_eq]
          constructor
          · intro h; simp at h
          · intro h; exact absurd ⟨h.1, by omega⟩ hn
        · simp [strconv.Atoi, strconv.ParseInt, isInt64Literal, hp, hb, hm, hp']


/-- C4, counterexample.  The claim says a colon is prepended exactly for a
non-empty string of decimal digits.  `PORT=-1` is not such a string, yet
`main` binds to `:-1`; `PORT=99999999999999999999` is such a string, yet
`main` leaves it unchanged. -/
theorem C4_counterexample :
    mainAddr (envPort "-1") = ":-1" ∧ specBindAddr "-1" = "-1" ∧
    mainAddr (envPort "99999999999999999999") = "99999999999999999999" ∧
    specBindAddr "99999999999999999999" = ":99999999999999999999" := by
  decide

/-- C4, amended.  The bind address is `:8080` when `PORT` is unset or empty,
a colon followed by `PORT` exactly when `strconv.Atoi` accepts `PORT` (an
optional sign, then a non-empty string of decimal digits whose value fits an
`int64`), and `PORT` unchanged otherwise; `3000` gives `:3000`, `:9090` stays
`:9090` and an unset `PORT` gives `:8080`. -/
theorem C4_bind_address :
    (∀ getenv : Environ, mainAddr getenv = amendedBindAddr (getenv "PORT")) ∧
    mainAddr (envPort "3000") = ":3000" ∧
    mainAddr (envPort ":9090") = ":9090" ∧
    mainAddr (envPort "") = ":8080" := by
  refine ⟨?_, by decide, by decide, by decide⟩
  intro getenv
  unfold mainAddr amendedBindAddr
  by_cases h : getenv "PORT" = ""
  · simp only [h, if_true]
    decide
  · simp only [h, if_false]
    by_cases hA : isInt64Literal (getenv "PORT").data = true
    · simp [hA, (Atoi_ok_iff _).2 hA]
    · have hB : ¬ (strconv.Atoi (getenv "PORT").data).2 = none :=
        fun hc => hA ((Atoi_ok_iff _).1 hc)
      simp [hA, hB]

theorem lastIndexByte_lt (s : List Char) (c : Char) (i : Nat)
    (h : net.lastIndexByte s c = some i) : i < s.length := by
  induction s generalizing i with
  | nil => simp [net.lastIndexByte] at h
  | cons x xs ih =>
    unfold net.lastIndexByte at h
    cases hx : net.lastIndexByte xs c with
    | some j =>
      rw [hx] at h
      simp only [Option.some.injEq] at h
      have := ih j hx
      simp only [List.length_cons]
      omega
    | none =>
      rw [hx] at h
      by_cases hc : x = c
      · simp only [hc, if_true, Option.some.injEq] at h
        simp only [List.length_cons]
        omega
      · simp [hc] at h

theorem splitFinish_host (a host h p : List Char) (i j k : Nat)
    (hs : net.splitFinish a host i j k = .ok (h, p)) : h = host := by
  unfold net.splitFinish at hs
  split_ifs at hs
  simp only [Except.ok.injEq, Prod.mk.injEq] at hs
  exact hs.1.symm

/-- The host that `net.SplitHostPort` returns is shorter than the address it
was given. -/
theorem SplitHostPort_host_length_lt (a h p : List Char)
    (hs : net.SplitHostPort a = .ok (h, p)) : h.length < a.length := by
  unfold net.SplitHostPort at hs
  cases hi : net.lastIndexByte a ':' with
  | none => simp [hi] at hs
  | some i =>
    have hlt := lastIndexByte_lt a ':' i hi
    simp only [hi] at hs
    by_cases hb : a.head? = some '['
    · simp only [hb, if_true] at hs
      cases hc : net.indexByte a ']' with
      | none => simp [hc] at hs
      | some close =>
        simp only [hc] at hs
        split_ifs at hs
        have := splitFinish_host _ _ _ _ _ _ _ hs
        subst this
        simp only [List.length_drop, List.length_take]
        omega
    · simp only [hb, if_false] at hs
      split_ifs at hs
      have := splitFinish_host _ _ _ _ _ _ _ hs
      subst this
      simp only [List.length_take]
      omega

theorem host_ne_remoteAddr (addr : String) (h p : List Char)
    (hs : net.SplitHostPort addr.data = .ok (h, p)) : addr ≠ String.mk h := by
  intro he
  have := SplitHostPort_host_length_lt _ _ _ hs
  rw [he] at this
  simp at this

theorem Say_ready (W : World) (b : Bot) (bt : BotAPI) (msg : String) (i : List Arg)
    (hbot : b.tgbot = some bt) :
    ∃ said, b.Say W msg i = .ok said ∧
      sentMessages said = [(b.tgchatid, W.Sprintf msg i)] := by
  unfold Bot.Say
  rw [hbot]
  dsimp only
  cases hsend : W.Send b.tgchatid (W.Sprintf msg i) <;> simp [sentMessages]

theorem Handler_matching (W : World) (b : Bot) (r : Request) (host port : List Char)
    (haddr : net.SplitHostPort r.RemoteAddr.data = .ok (host, port))
    (hallow : badguysLookup b.badguys r.RemoteAddr = false)
    (hsecret : r.queryGet "secret" = b.secret) :
    b.Handler W .fresh r =
      match b.Say W (W.prettySprint (W.decodeWebhook r.Body Webhook.zero).1) [] with
      | .error reason =>
        ⟨b, .fresh, [.log (W.prettySprint (W.decodeWebhook r.Body Webhook.zero).1)],
          .panicked reason⟩
      | .ok said =>
        ⟨b, ⟨some 200, "200"⟩,
          .log (W.prettySprint (W.decodeWebhook r.Body Webhook.zero).1) :: said, .returned⟩ := by
  unfold Bot.Handler
  simp only [haddr, Bot.checkRequest, hallow, hsecret, if_true, Bool.false_eq_true, if_false,
    Bool.not_true]
  cases b.Say W (W.prettySprint (W.decodeWebhook r.Body Webhook.zero).1) [] <;> rfl

/-- C1, counterexample.  Three requests carry the configured secret and get
no 200 and no notification: one from an address on the denylist (dropped by
`checkRequest`), one whose remote address has no port (`log.Fatal`), and one
handled by the `Bot` of `main` before `LaunchTelegramBot` has set `tgbot`
(nil pointer panic inside `Say`). -/
theorem C1_counterexample :
    ((webhookRequest "203.0.113.7:40000" "s3cret" "").queryGet "secret" = readyBot.secret ∧
      Bot.Handler (goWorld []) { readyBot with badguys := some ["203.0.113.7:40000"] }
        .fresh (webhookRequest "203.0.113.7:40000" "s3cret" "")
        = ⟨{ readyBot with badguys := some ["203.0.113.7:40000"] }, ⟨none, ""⟩, [],
            .returned⟩) ∧
    (Bot.Handler (goWorld []) readyBot .fresh (webhookRequest "203.0.113.7" "s3cret" "")
        = ⟨readyBot, ⟨none, ""⟩, [.log "address 203.0.113.7: missing port in address"],
            .fatal⟩) ∧
    ((webhookRequest "203.0.113.7:40000" "s3cret" "").queryGet "secret"
        = (mainBot (envOf "s3cret" "")).secret ∧
      Bot.Handler (goWorld []) (mainBot (envOf "s3cret" "")) .fresh
        (webhookRequest "203.0.113.7:40000" "s3cret" "")
        = ⟨mainBot (envOf "s3cret" ""), ⟨none, ""⟩, [.log (pretty.Sprint Webhook.zero)],
            .panicked nilDerefPanic⟩) := by
  decide

/-- C1, amended.  For every request whose remote address splits into host and
port and is not a key of the denylist, handled once the Telegram client is
set, whose `secret` parameter equals the configured secret: `Handler` returns,
the response is status 200 with body `200`, and `Say` is called once with the
pretty-printed decoded body, which sends exactly one message to the chat
target, whether or not the send fails. -/
theorem C1_matching_secret (W : World) (b : Bot) (r : Request) (host port : List Char)
    (bt : BotAPI)
    (haddr : net.SplitHostPort r.RemoteAddr.data = .ok (host, port))
    (hallow : badguysLookup b.badguys r.RemoteAddr = false)
    (hbot : b.tgbot = some bt)
    (hsecret : r.queryGet "secret" = b.secret) :
    (b.Handler W .fresh r).exit = .returned ∧
    (b.Handler W .fresh r).w = ⟨some 200, "200"⟩ ∧
    (∃ said, b.Say W (W.prettySprint (W.decodeWebhook r.Body Webhook.zero).1) [] = .ok said ∧
      (b.Handler W .fresh r).events =
        .log (W.prettySprint (W.decodeWebhook r.Body Webhook.zero).1) :: said) ∧
    sentMessages (b.Handler W .fresh r).events =
      [(b.tgchatid, W.Sprintf (W.prettySprint (W.decodeWebhook r.Body Webhook.zero).1) [])] := by
  obtain ⟨said, hsay, hsent⟩ :=
    Say_ready W b bt (W.prettySprint (W.decodeWebhook r.Body Webhook.zero).1) [] hbot
  rw [Handler_matching W b r host port haddr hallow hsecret, hsay]
  exact ⟨rfl, rfl, ⟨said, rfl, rfl⟩, by simpa [sentMessages] using hsent⟩

/-- C1, witness: a request from 203.0.113.7:40000 with the configured secret
and a JSON body, handled by `readyBot`. -/
theorem C1_matching_secret_witness :
    (Bot.Handler (goWorld []) readyBot .fresh
        (webhookRequest "203.0.113.7:40000" "s3cret" "\x7b\"id\":\"abc\"\x7d")).w
      = ⟨some 200, "200"⟩ ∧
    sentMessages (Bot.Handler (goWorld []) readyBot .fresh
        (webhookRequest "203.0.113.7:40000" "s3cret" "\x7b\"id\":\"abc\"\x7d")).events
      = [(42, (goWorld []).Sprintf ((goWorld []).prettySprint
          ((goWorld []).decodeWebhook "\x7b\"id\":\"abc\"\x7d" Webhook.zero).1) [])] :=
  have h := C1_matching_secret (goWorld []) readyBot
    (webhookRequest "203.0.113.7:40000" "s3cret" "\x7b\"id\":\"abc\"\x7d")
    "203.0.113.7".data "40000".data ⟨"123:abc"⟩ (by rfl) (by decide) rfl (by decide)
  ⟨h.2.1, h.2.2.2⟩

theorem Handler_keeps_nil_denylist (W : World) (b : Bot) (w : ResponseWriter) (r : Request)
    (hnil : b.badguys = none) : (b.Handler W w r).bot.badguys = none := by
  unfold Bot.Handler
  cases net.SplitHostPort r.RemoteAddr.data with
  | error err => exact hnil
  | ok hp =>
    obtain ⟨host, port⟩ := hp
    simp only [hnil]
    split_ifs
    · exact hnil
    · cases b.Say W (W.prettySprint (W.decodeWebhook r.Body Webhook.zero).1) [] <;> exact hnil
    · exact hnil

theorem pollUpdates_keeps_denylist (W : World) (b : Bot) (updates : List Update) :
    (pollUpdates W b updates).bot.badguys = b.badguys := by
  induction updates with
  | nil => rfl
  | cons u us ih =>
    rw [pollUpdates]
    cases u.Message with
    | none => rfl
    | some m =>
      simp only []
      split_ifs
      · cases m.Chat <;> rfl
      · exact ih

theorem LaunchTelegramBot_keeps_denylist (W : World) (b : Bot) :
    (b.LaunchTelegramBot W).bot.badguys = b.badguys := by
  have hres : ∀ b' : Bot, (resolveChannel W b').bot.badguys = b'.badguys := by
    intro b'
    unfold resolveChannel
    split_ifs
    · dsimp only
      cases (strconv.ParseInt b'.channel.data 64).2 with
      | none => rfl
      | some e =>
        dsimp only
        cases W.GetChat b'.channel <;> rfl
    · rfl
  have hdis : ∀ b' : Bot, (discoverChat W b').bot.badguys = b'.badguys := by
    intro b'
    unfold discoverChat
    split_ifs
    · cases W.GetUpdatesChan with
      | error e => rfl
      | ok us => exact pollUpdates_keeps_denylist W b' us
    · rfl
  unfold Bot.LaunchTelegramBot
  cases W.NewBotAPI b.tokenTG with
  | error e => rfl
  | ok bt =>
    simp only []
    have h1 := hres { b with tgbot := some bt }
    have h2 := hdis (resolveChannel W { b with tgbot := some bt }).bot
    cases hx : (resolveChannel W { b with tgbot := some bt }).exit with
    | returned =>
      simp only []
      cases hy : (discoverChat W (resolveChannel W { b with tgbot := some bt }).bot).exit with
      | returned =>
        simp only []
        cases Bot.Say W _ "Hi guys: %s" _ <;> simp only [] <;> rw [h2, h1]
      | panicked reason => simp only []; rw [h2, h1]
      | fatal => simp only []; rw [h2, h1]
      | blocked => simp only []; rw [h2, h1]
    | panicked reason => simp only []; rw [h1]
    | fatal => simp only []; rw [h1]
    | blocked => simp only []; rw [h1]

/-- C2: a request with a mismatched secret, handled by a `Bot` whose denylist
is the nil map, as `main` leaves it.  `Handler` writes status 403 and then
panics on the write to the nil map: the `Bot` is unchanged and the denylist
holds neither the caller's host nor its remote address.  The denylist stays
nil in every state reachable from there: no run of `Handler` and no run of
`LaunchTelegramBot` makes the map. -/
theorem C2_nil_denylist_panics (W : World) (b : Bot) (r : Request) (host port : List Char)
    (hnil : b.badguys = none)
    (haddr : net.SplitHostPort r.RemoteAddr.data = .ok (host, port))
    (hsecret : r.queryGet "secret" ≠ b.secret) :
    b.Handler W .fresh r =
      ⟨b, ⟨some 403, "Invalid secret\n"⟩,
        [.log ("warn: Invalid secret attempted" ++ r.Host)], .panicked nilMapPanic⟩ ∧
    badguysLookup (b.Handler W .fresh r).bot.badguys (String.mk host) = false ∧
    badguysLookup (b.Handler W .fresh r).bot.badguys r.RemoteAddr = false ∧
    (∀ (w : ResponseWriter) (r2 : Request), (b.Handler W w r2).bot.badguys = none) ∧
    (b.LaunchTelegramBot W).bot.badguys = none := by
  have h : b.Handler W .fresh r =
      ⟨b, ⟨some 403, "Invalid secret\n"⟩,
        [.log ("warn: Invalid secret attempted" ++ r.Host)], .panicked nilMapPanic⟩ := by
    unfold Bot.Handler
    simp only [haddr, Bot.checkRequest, hnil, badguysLookup, hsecret, if_false,
      Bool.false_eq_true, Bool.not_true]
    rfl
  refine ⟨h, ?_, ?_, fun w r2 => Handler_keeps_nil_denylist W b w r2 hnil, ?_⟩
  · rw [h]; simp [hnil, badguysLookup]
  · rw [h]; simp [hnil, badguysLookup]
  · rw [LaunchTelegramBot_keeps_denylist, hnil]

/-- C2, at the failing input: the `Bot` of `main` with `SECRET=s3cret`, and a
request from 203.0.113.7:40000 with `secret=wrong`. -/
theorem C2_nil_denylist_panics_witness :
    (mainBot (envOf "s3cret" "")).badguys = none ∧
    (Bot.Handler (goWorld []) (mainBot (envOf "s3cret" "")) .fresh
        (webhookRequest "203.0.113.7:40000" "wrong" "")).exit = .panicked nilMapPanic ∧
    badguysLookup (Bot.Handler (goWorld []) (mainBot (envOf "s3cret" "")) .fresh
        (webhookRequest "203.0.113.7:40000" "wrong" "")).bot.badguys "203.0.113.7" = false :=
  have h := C2_nil_denylist_panics (goWorld []) (mainBot (envOf "s3cret" ""))
    (webhookRequest "203.0.113.7:40000" "wrong" "") "203.0.113.7".data "40000".data
    rfl (by rfl) (by decide)
  ⟨rfl, by rw [h.1], h.2.1⟩

set_option maxRecDepth 100000

theorem Handler_mismatch (W : World) (b : Bot) (r : Request) (host port : List Char)
    (haddr : net.SplitHostPort r.RemoteAddr.data = .ok (host, port))
    (hallow : badguysLookup b.badguys r.RemoteAddr = false)
    (hsecret : r.queryGet "secret" ≠ b.secret) :
    b.Handler W .fresh r =
      match b.badguys with
      | none =>
        ⟨b, ⟨some 403, "Invalid secret\n"⟩,
          [.log ("warn: Invalid secret attempted" ++ r.Host)], .panicked nilMapPanic⟩
      | some keys =>
        ⟨{ b with
            badguys := some (if keys.contains (String.mk host) then keys
              else String.mk host :: keys) },
          ⟨some 403, "Invalid secret\n"⟩,
          [.log ("warn: Invalid secret attempted" ++ r.Host)], .returned⟩ := by
  unfold Bot.Handler
  simp only [haddr, Bot.checkRequest, hallow, hsecret, if_false, Bool.false_eq_true,
    Bool.not_true]
  cases b.badguys <;> rfl

theorem Handler_mismatch_bot (W : World) (b : Bot) (r : Request) (host port : List Char)
    (haddr : net.SplitHostPort r.RemoteAddr.data = .ok (host, port))
    (hallow : badguysLookup b.badguys r.RemoteAddr = false)
    (hsecret : r.queryGet "secret" ≠ b.secret) :
    (b.Handler W .fresh r).bot.secret = b.secret ∧
    badguysLookup (b.Handler W .fresh r).bot.badguys r.RemoteAddr = false := by
  rw [Handler_mismatch W b r host port haddr hallow hsecret]
  cases hk : b.badguys with
  | none => simp [badguysLookup, hk]
  | some keys =>
    have hne := host_ne_remoteAddr r.RemoteAddr host port haddr
    have hkeys : keys.contains r.RemoteAddr = false := by
      simpa [badguysLookup, hk] using hallow
    refine ⟨rfl, ?_⟩
    simp only [badguysLookup]
    split_ifs
    · exact hkeys
    · simp only [List.contains_cons, Bool.or_eq_false_iff, beq_eq_false_iff_ne, ne_eq]
      exact ⟨hne, hkeys⟩

/-- C3: after `Handler` has processed a request with a mismatched secret from
a remote address, a second request from the same remote address is not
dropped: `checkRequest` looks the denylist up under the remote address with
its port, while `Handler` files the offender under the host alone, so
`checkRequest` still answers true, and a second request with a wrong secret
is answered 403 again. -/
theorem C3_offender_not_dropped (W : World) (b : Bot) (r r2 : Request) (host port : List Char)
    (haddr : net.SplitHostPort r.RemoteAddr.data = .ok (host, port))
    (hallow : badguysLookup b.badguys r.RemoteAddr = false)
    (hsecret : r.queryGet "secret" ≠ b.secret)
    (hsame : r2.RemoteAddr = r.RemoteAddr) :
    (b.Handler W .fresh r).bot.checkRequest (String.mk host) r2 = true ∧
    (r2.queryGet "secret" ≠ b.secret →
      ((b.Handler W .fresh r).bot.Handler W .fresh r2).w = ⟨some 403, "Invalid secret\n"⟩) := by
  obtain ⟨hsec, hlook⟩ := Handler_mismatch_bot W b r host port haddr hallow hsecret
  constructor
  · simp [Bot.checkRequest, hsame, hlook]
  · intro h2
    rw [Handler_mismatch W (b.Handler W .fresh r).bot r2 host port
      (by rw [hsame]; exact haddr) (by rw [hsame]; exact hlook) (by rw [hsec]; exact h2)]
    cases (b.Handler W .fresh r).bot.badguys <;> rfl

/-- C3, at the failing input: a `Bot` with an initialised, empty denylist and
the secret `s3cret`; two requests from 203.0.113.7:40000, the first with
`secret=wrong`.  The first is answered 403 and files `203.0.113.7`; the
second, with the right secret, is answered 200.  With the `Bot` of `main`
the second request is admitted by `checkRequest` as well. -/
theorem C3_offender_not_dropped_witness :
    (Bot.Handler (goWorld []) { readyBot with badguys := some [] } .fresh
        (webhookRequest "203.0.113.7:40000" "wrong" "")).bot.badguys = some ["203.0.113.7"] ∧
    Bot.checkRequest (Bot.Handler (goWorld []) { readyBot with badguys := some [] } .fresh
        (webhookRequest "203.0.113.7:40000" "wrong" "")).bot "203.0.113.7"
        (webhookRequest "203.0.113.7:40000" "s3cret" "") = true ∧
    (Bot.Handler (goWorld [])
        (Bot.Handler (goWorld []) { readyBot with badguys := some [] } .fresh
          (webhookRequest "203.0.113.7:40000" "wrong" "")).bot .fresh
        (webhookRequest "203.0.113.7:40000" "s3cret" "")).w = ⟨some 200, "200"⟩ ∧
    Bot.checkRequest (Bot.Handler (goWorld []) (mainBot (envOf "s3cret" "")) .fresh
        (webhookRequest "203.0.113.7:40000" "wrong" "")).bot "203.0.113.7"
        (webhookRequest "203.0.113.7:40000" "wrong" "") = true :=
  have h := C3_offender_not_dropped (goWorld []) { readyBot with badguys := some [] }
    (webhookRequest "203.0.113.7:40000" "wrong" "")
    (webhookRequest "203.0.113.7:40000" "s3cret" "") "203.0.113.7".data "40000".data
    (by rfl) (by decide) (by decide) rfl
  ⟨by decide, h.1, by decide, by decide⟩

theorem resolveChannel_numeric (W : World) (b : Bot) (n : Int)
    (hchan : b.channel ≠ "")
    (hparse : strconv.ParseInt b.channel.data 64 = (n, none)) :
    resolveChannel W b = ⟨{ b with tgchatid := n }, [], .returned⟩ := by
  unfold resolveChannel
  simp [hchan, hparse]

theorem openedStream_cons_open (t : Nat) (rest : List Event) :
    openedStream (.getUpdatesChan t :: rest) = true := rfl

theorem sentMessages_append (xs ys : List Event) :
    sentMessages (xs ++ ys) = sentMessages xs ++ sentMessages ys := by
  induction xs with
  | nil => rfl
  | cons e es ih => cases e <;> simp [sentMessages, ih]

theorem pollUpdates_here (W : World) (b : Bot) (u : Update) (m : Message) (chat : Chat)
    (rest : List Update)
    (hm : u.Message = some m) (htext : m.Text = "/here") (hchat : m.Chat = some chat) :
    (pollUpdates W b (u :: rest)).bot = { b with tgchatid := chat.ID } ∧
    (pollUpdates W b (u :: rest)).exit = .returned ∧
    sentMessages (pollUpdates W b (u :: rest)).events = [] := by
  rw [pollUpdates]
  simp only [hm, htext, hchat, if_true]
  cases W.DeleteMessage chat.ID m.MessageID <;> simp [sentMessages]

theorem LaunchTelegramBot_steps (W : World) (b b1 b2 : Bot) (bt bt2 : BotAPI)
    (ev2 : List Event)
    (hnew : W.NewBotAPI b.tokenTG = .ok bt)
    (h1 : resolveChannel W { b with tgbot := some bt } = ⟨b1, [], .returned⟩)
    (h2 : discoverChat W b1 = ⟨b2, ev2, .returned⟩)
    (hb2 : b2.tgbot = some bt2) :
    (b.LaunchTelegramBot W).bot = b2 ∧
    (b.LaunchTelegramBot W).exit = .returned ∧
    sentMessages (b.LaunchTelegramBot W).events =
      sentMessages ev2 ++ [(b2.tgchatid, W.Sprintf "Hi guys: %s" [.int64 b2.tgchatid])] := by
  obtain ⟨said, hsay, hsent⟩ := Say_ready W b2 bt2 "Hi guys: %s" [.int64 b2.tgchatid] hb2
  unfold Bot.LaunchTelegramBot
  simp only [hnew, h1, h2, hsay, List.nil_append, sentMessages_append, hsent, and_self]

theorem discoverChat_here (W : World) (b1 : Bot) (u : Update) (m : Message) (chat : Chat)
    (rest : List Update)
    (hid : b1.tgchatid ≠ 0)
    (hup : W.GetUpdatesChan = .ok (u :: rest))
    (hm : u.Message = some m) (htext : m.Text = "/here") (hchat : m.Chat = some chat) :
    ∃ ev2, discoverChat W b1 = ⟨{ b1 with tgchatid := chat.ID }, ev2, .returned⟩ ∧
      sentMessages ev2 = [] := by
  obtain ⟨hb, hx, hs⟩ := pollUpdates_here W b1 u m chat rest hm htext hchat
  refine ⟨.getUpdatesChan 60 :: (pollUpdates W b1 (u :: rest)).events, ?_, ?_⟩
  · unfold discoverChat
    simp only [ne_eq, hid, not_false_eq_true, if_true, hup, hb, hx]
  · simpa [sentMessages] using hs

theorem LaunchTelegramBot_numeric_here (W : World) (b : Bot) (bt : BotAPI) (n : Int)
    (hnew : W.NewBotAPI b.tokenTG = .ok bt)
    (hchan : b.channel ≠ "")
    (hparse : strconv.ParseInt b.channel.data 64 = (n, none))
    (hn : n ≠ 0) :
    (∀ (u : Update) (m : Message) (chat : Chat) (rest : List Update),
      W.GetUpdatesChan = .ok (u :: rest) → u.Message = some m → m.Text = "/here" →
      m.Chat = some chat →
      (b.LaunchTelegramBot W).bot.tgchatid = chat.ID ∧
      sentMessages (b.LaunchTelegramBot W).events
        = [(chat.ID, W.Sprintf "Hi guys: %s" [.int64 chat.ID])]) := by
  have hres := resolveChannel_numeric W { b with tgbot := some bt } n hchan hparse
  intro u m chat rest hup hm htext hchat
  obtain ⟨ev2, hdis, hs⟩ := discoverChat_here W { b with tgbot := some bt, tgchatid := n }
    u m chat rest hn hup hm htext hchat
  obtain ⟨hbot, _, hsent⟩ := LaunchTelegramBot_steps W b _ _ bt bt ev2 hnew hres hdis rfl
  rw [hbot, hsent, hs]
  exact ⟨rfl, rfl⟩

/-- C5: for a `TELECHAN` that parses as a chat id other than zero,
`LaunchTelegramBot` opens the update stream: the test `b.tgchatid != 0` on
line 115 sends a known chat id into the discovery.  When no update arrives it
waits on the stream and sends no greeting at all; when the first update is a
`/here` message, the chat of that message replaces the configured chat id and
receives the greeting. -/
theorem C5_numeric_channel_opens_stream (W : World) (b : Bot) (bt : BotAPI) (n : Int)
    (hnew : W.NewBotAPI b.tokenTG = .ok bt)
    (hchan : b.channel ≠ "")
    (hparse : strconv.ParseInt b.channel.data 64 = (n, none))
    (hn : n ≠ 0) :
    openedStream (b.LaunchTelegramBot W).events = true ∧
    (W.GetUpdatesChan = .ok [] →
      (b.LaunchTelegramBot W).exit = .blocked ∧
      sentMessages (b.LaunchTelegramBot W).events = []) ∧
    (∀ (u : Update) (m : Message) (chat : Chat) (rest : List Update),
      W.GetUpdatesChan = .ok (u :: rest) → u.Message = some m → m.Text = "/here" →
      m.Chat = some chat →
      (b.LaunchTelegramBot W).bot.tgchatid = chat.ID ∧
      sentMessages (b.LaunchTelegramBot W).events
        = [(chat.ID, W.Sprintf "Hi guys: %s" [.int64 chat.ID])]) := by
  refine ⟨?_, ?_, LaunchTelegramBot_numeric_here W b bt n hnew hchan hparse hn⟩
  all_goals
    have hres := resolveChannel_numeric W { b with tgbot := some bt } n hchan hparse
    unfold Bot.LaunchTelegramBot
    simp only [hnew, hres, discoverChat, ne_eq, hn, not_false_eq_true, if_true,
      List.nil_append]
  · cases hup : W.GetUpdatesChan with
    | error err => simp [openedStream]
    | ok updates =>
      simp only []
      cases (pollUpdates W { b with tgbot := some bt, tgchatid := n } updates).exit <;>
        first
        | rfl
        | (cases Bot.Say W _ "Hi guys: %s" _ <;> rfl)
  · intro h
    simp [h, pollUpdates, sentMessages]

/-- C5, at the failing input: `TELECHAN=12345`, and a `/here` message from
chat 777 arrives.  The stream is opened, and the greeting goes to chat 777,
not to chat 12345. -/
theorem C5_numeric_channel_opens_stream_witness :
    strconv.ParseInt (mainBot (envOf "s3cret" "12345")).channel.data 64 = (12345, none) ∧
    openedStream (Bot.LaunchTelegramBot (goWorld [messageUpdate 1 777 "/here"])
      (mainBot (envOf "s3cret" "12345"))).events = true ∧
    sentMessages (Bot.LaunchTelegramBot (goWorld [messageUpdate 1 777 "/here"])
      (mainBot (envOf "s3cret" "12345"))).events = [(777, "Hi guys: %!s(int64=777)")] :=
  have h := C5_numeric_channel_opens_stream (goWorld [messageUpdate 1 777 "/here"])
    (mainBot (envOf "s3cret" "12345")) ⟨""⟩ 12345 rfl (by decide) (by decide) (by decide)
  ⟨by decide, h.1, by decide⟩

/-- C6: when no channel is configured and the chat id is still zero,
`LaunchTelegramBot` does not open the update stream, whatever updates would
arrive on it: it leaves the chat id at zero and sends the greeting to chat
0. -/
theorem C6_no_channel_skips_discovery (W : World) (b : Bot) (bt : BotAPI)
    (hnew : W.NewBotAPI b.tokenTG = .ok bt)
    (hchan : b.channel = "")
    (hid : b.tgchatid = 0) :
    openedStream (b.LaunchTelegramBot W).events = false ∧
    (b.LaunchTelegramBot W).bot.tgchatid = 0 ∧
    sentMessages (b.LaunchTelegramBot W).events = [(0, W.Sprintf "Hi guys: %s" [.int64 0])] ∧
    (b.LaunchTelegramBot W).exit = .returned := by
  unfold Bot.LaunchTelegramBot
  simp only [hnew, resolveChannel, hchan, ne_eq, not_true_eq_false, if_false, discoverChat, hid,
    List.nil_append, Bot.Say]
  cases W.Send 0 (W.Sprintf "Hi guys: %s" [.int64 0]) <;>
    simp [openedStream, sentMessages, hid]

/-- C6, at the failing input: the `Bot` of `main` without `TELECHAN`, and a
`/here` message from chat 777 waiting on the stream.  The stream is not
opened and the greeting goes to chat 0. -/
theorem C6_no_channel_skips_discovery_witness :
    openedStream (Bot.LaunchTelegramBot (goWorld [messageUpdate 1 777 "/here"])
      (mainBot (envOf "s3cret" ""))).events = false ∧
    (Bot.LaunchTelegramBot (goWorld [messageUpdate 1 777 "/here"])
      (mainBot (envOf "s3cret" ""))).bot.tgchatid = 0 ∧
    sentMessages (Bot.LaunchTelegramBot (goWorld [messageUpdate 1 777 "/here"])
      (mainBot (envOf "s3cret" ""))).events = [(0, "Hi guys: %!s(int64=0)")] :=
  have h := C6_no_channel_skips_discovery (goWorld [messageUpdate 1 777 "/here"])
    (mainBot (envOf "s3cret" "")) ⟨""⟩ rfl rfl rfl
  ⟨h.1, h.2.1, h.2.2.1⟩

theorem pollUpdates_skip (W : World) (b : Bot) (u : Update) (m : Message) (rest : List Update)
    (hm : u.Message = some m) (htext : m.Text ≠ "/here") :
    pollUpdates W b (u :: rest) =
      ⟨(pollUpdates W b rest).bot, .logUpdate u :: (pollUpdates W b rest).events,
        (pollUpdates W b rest).exit⟩ := by
  rw [pollUpdates]
  simp [hm, htext]

/-- C10: in the polling loop an update that carries no message is not
skipped.  After any updates whose messages have another text than `/here`
(these are skipped), reading `update.Message.Text` of an update whose
`Message` is nil panics with a nil pointer dereference; the chat target is
unchanged and polling does not continue. -/
theorem C10_nil_message_panics (W : World) (b : Bot) (before : List Update) (u : Update)
    (after : List Update)
    (hbefore : ∀ v ∈ before, ∃ m, v.Message = some m ∧ m.Text ≠ "/here")
    (hnil : u.Message = none) :
    (pollUpdates W b (before ++ u :: after)).exit = .panicked nilDerefPanic ∧
    (pollUpdates W b (before ++ u :: after)).bot = b := by
  induction before with
  | nil =>
    simp only [List.nil_append]
    rw [pollUpdates]
    simp [hnil]
  | cons v vs ih =>
    obtain ⟨m, hm, htext⟩ := hbefore v (List.mem_cons_self v vs)
    have ih := ih (fun w hw => hbefore w (List.mem_cons_of_mem v hw))
    rw [List.cons_append, pollUpdates_skip W b v m _ hm htext]
    exact ih

/-- C10, at the failing input: `TELECHAN=12345`; the stream delivers a
message `hi`, then an update without a message, then `/here` from chat 777.
`LaunchTelegramBot` panics at the second update and sends nothing. -/
theorem C10_nil_message_panics_witness :
    (pollUpdates (goWorld []) readyBot
      ([messageUpdate 1 5 "hi"] ++ ⟨2, none⟩ :: [messageUpdate 3 777 "/here"])).exit
        = .panicked nilDerefPanic ∧
    Bot.LaunchTelegramBot
        (goWorld [messageUpdate 1 5 "hi", ⟨2, none⟩, messageUpdate 3 777 "/here"])
        (mainBot (envOf "s3cret" "12345"))
      = ⟨{ mainBot (envOf "s3cret" "12345") with tgbot := some ⟨""⟩, tgchatid := 12345 },
          [.getUpdatesChan 60, .logUpdate (messageUpdate 1 5 "hi"), .logUpdate ⟨2, none⟩],
          .panicked nilDerefPanic⟩ :=
  have h := C10_nil_message_panics (goWorld []) readyBot [messageUpdate 1 5 "hi"] ⟨2, none⟩
    [messageUpdate 3 777 "/here"] (by decide) rfl
  ⟨h.1, by decide⟩

/-- The keys `message` and `errors` of the documented error shape name no
field of `Product`: a member with one of these keys is ignored, whatever its
value. -/
theorem setProductField_error_keys (v : JSON) (p : Product) :
    setProductField "message" v p = (p, none) ∧ setProductField "errors" v p = (p, none) :=
  ⟨rfl, rfl⟩

theorem storeProduct_error_shape (message errors : JSON) (p : Product) :
    json.storeStruct setProductField "selly.Product"
      (.obj [("message", message), ("errors", errors)]) p = (p, none) := by
  simp only [json.storeStruct, json.decodeMembers, (setProductField_error_keys _ _).1,
    (setProductField_error_keys _ _).2]

/-- C7: whenever `json.Unmarshal` of the response body into a `Product`
reports no error, `GetProduct` returns that product and a nil error.  The
fallback to `ErrorResponse` is only reached when the first `Unmarshal` fails,
and the documented error shape does not make it fail: in the reference
decoder an object with the members `message` and `errors` stores nothing into
a `Product` and raises no error, whatever the values of the two members. -/
theorem C7_error_body_taken_for_product (W : World) (s : Selly) (id body : String)
    (hget : W.GetBytes s.httpClient
      (W.Sprintf "https://selly.gg/api/v2/products/%s" [.str id]) = .ok body)
    (hok : (W.unmarshalProduct body Product.zero).2 = none) :
    s.GetProduct W id = (some (W.unmarshalProduct body Product.zero).1, none) ∧
    (∀ (message errors : JSON) (p : Product),
      json.storeStruct setProductField "selly.Product"
        (.obj [("message", message), ("errors", errors)]) p = (p, none)) := by
  refine ⟨?_, storeProduct_error_shape⟩
  unfold Selly.GetProduct
  simp only [hget, hok]

/-- C7, at the failing input: the server answers with the documented error
shape.  `Unmarshal` into `Product` succeeds and leaves the zero product;
`GetProduct` returns it with a nil error, and the message `Product not found`
is lost. -/
theorem C7_error_body_taken_for_product_witness :
    ((goWorldServing
        "\x7b\"message\":\"Product not found\",\"errors\":\x7b\"title\":[\"not found\"]\x7d\x7d"
      ).unmarshalProduct
        "\x7b\"message\":\"Product not found\",\"errors\":\x7b\"title\":[\"not found\"]\x7d\x7d"
        Product.zero).2 = none ∧
    (Selly.GetProduct (goWorldServing
        "\x7b\"message\":\"Product not found\",\"errors\":\x7b\"title\":[\"not found\"]\x7d\x7d")
      ⟨⟨"ua", "me@example.org", "token", ""⟩, "", "", ""⟩ "abc").2 = none ∧
    ((Selly.GetProduct (goWorldServing
        "\x7b\"message\":\"Product not found\",\"errors\":\x7b\"title\":[\"not found\"]\x7d\x7d")
      ⟨⟨"ua", "me@example.org", "token", ""⟩, "", "", ""⟩ "abc").1.map (·.ID)) = some "" ∧
    ((goWorldServing "").unmarshalErrorResponse
        "\x7b\"message\":\"Product not found\",\"errors\":\x7b\"title\":[\"not found\"]\x7d\x7d"
        ErrorResponse.zero).1 = ⟨"Product not found", ["not found"]⟩ :=
  have h := C7_error_body_taken_for_product (goWorldServing
      "\x7b\"message\":\"Product not found\",\"errors\":\x7b\"title\":[\"not found\"]\x7d\x7d")
    ⟨⟨"ua", "me@example.org", "token", ""⟩, "", "", ""⟩ "abc"
    "\x7b\"message\":\"Product not found\",\"errors\":\x7b\"title\":[\"not found\"]\x7d\x7d"
    rfl (by decide)
  ⟨by decide, by rw [h.1], by rw [h.1]; decide, by decide⟩

theorem takeWhile_no_percent (cs : List Char) (h : '%' ∉ cs) :
    cs.takeWhile (· ≠ '%') = cs ∧ cs.dropWhile (· ≠ '%') = [] := by
  induction cs with
  | nil => exact ⟨rfl, rfl⟩
  | cons c cs ih =>
    have hc : c ≠ '%' := fun e => h (by simp [e])
    have hd : decide (c ≠ '%') = true := by simp [hc]
    have ih := ih (fun hm => h (List.mem_cons_of_mem c hm))
    constructor
    · rw [List.takeWhile_cons, hd, if_pos rfl, ih.1]
    · rw [List.dropWhile_cons, hd, if_pos rfl, ih.2]

/-- With no operand, `fmt.Sprintf` returns a format without a percent sign
unchanged. -/
theorem Sprintf_no_percent (msg : String) (h : '%' ∉ msg.data) :
    fmt.Sprintf msg [] = msg := by
  obtain ⟨h1, h2⟩ := takeWhile_no_percent msg.data h
  unfold fmt.Sprintf
  rw [fmt.doPrintf]
  simp only [h1, h2]
  simp [fmt.finishPrintf]

theorem argNumber_out (d : fmt.Directive) (format : List Char) (n : Nat) :
    (fmt.argNumber d format n).1.out = d.out := by
  unfold fmt.argNumber
  cases format with
  | nil => rfl
  | cons c cs =>
    dsimp only
    split_ifs <;> rfl

theorem readWidth_out (a : List Arg) (d : fmt.Directive) (format : List Char) :
    ∃ t, (fmt.readWidth a d format).1.out = d.out ++ t := by
  unfold fmt.readWidth
  split
  · dsimp only
    split_ifs
    · exact ⟨[], by simp⟩
    · exact ⟨_, rfl⟩
  · dsimp only
    split_ifs <;> exact ⟨[], by simp⟩

theorem readPrecision_out (a : List Arg) (d : fmt.Directive) (format : List Char) :
    ∃ t, (fmt.readPrecision a d format).1.out = d.out ++ t := by
  unfold fmt.readPrecision
  split
  · dsimp only
    generalize hd0 : (if d.afterIndex = true then { d with goodArgNum := false } else d) = d0
    have hd : d0.out = d.out := by rw [← hd0]; split_ifs <;> rfl
    split
    · dsimp only
      split_ifs
      · exact ⟨[], by simp [argNumber_out, hd]⟩
      · exact ⟨"%!(BADPREC)".data, by simp only [argNumber_out, hd]⟩
    · exact ⟨[], by simp [argNumber_out, hd]⟩
  · exact ⟨[], by simp⟩

theorem applyVerb_out (a : List Arg) (d : fmt.Directive) (verb : Char) :
    ∃ t, (fmt.applyVerb a d verb).out = d.out ++ t := by
  unfold fmt.applyVerb
  split_ifs
  · exact ⟨_, rfl⟩
  · exact ⟨"%!".data ++ [verb] ++ "(BADINDEX)".data, by simp only [List.append_assoc]⟩
  · cases a.get? d.argNum with
    | none => exact ⟨"%!".data ++ [verb] ++ "(MISSING)".data, by simp only [List.append_assoc]⟩
    | some arg => exact ⟨_, rfl⟩

theorem readDirective_out (a : List Arg) (d : fmt.Directive) (format : List Char) :
    ∃ t, (fmt.readDirective a d format).1.out = d.out ++ t := by
  unfold fmt.readDirective
  dsimp only
  obtain ⟨t1, h1⟩ := readWidth_out a (fmt.argNumber d format a.length).1
    (fmt.argNumber d format a.length).2
  obtain ⟨t2, h2⟩ := readPrecision_out a
    (fmt.readWidth a (fmt.argNumber d format a.length).1 (fmt.argNumber d format a.length).2).1
    (fmt.readWidth a (fmt.argNumber d format a.length).1 (fmt.argNumber d format a.length).2).2
  refine ⟨t1 ++ t2, ?_⟩
  split_ifs
  · rw [h2, h1, argNumber_out, List.append_assoc]
  · rw [argNumber_out, h2, h1, argNumber_out, List.append_assoc]

theorem finishPrintf_extends (a : List Arg) (out : List Char) (argNum : Nat)
    (reordered : Bool) : ∃ t, fmt.finishPrintf a out argNum reordered = out ++ t := by
  unfold fmt.finishPrintf
  split_ifs
  · exact ⟨_, rfl⟩
  · exact ⟨[], by simp⟩

/-- The method `doPrintf` only adds to the text it has written so far. -/
theorem doPrintf_extends (a : List Arg) (fuel : Nat) :
    ∀ (format out : List Char) (argNum : Nat) (reordered : Bool),
      ∃ t, fmt.doPrintf a fuel format out argNum reordered = out ++ t := by
  induction fuel with
  | zero => intro format out argNum reordered; exact ⟨[], by simp [fmt.doPrintf]⟩
  | succ fuel ih =>
    intro format out argNum reordered
    rw [fmt.doPrintf]
    dsimp only
    generalize List.takeWhile (fun x => decide (x ≠ '%')) format = plain
    cases List.dropWhile (fun x => decide (x ≠ '%')) format with
    | nil =>
      obtain ⟨t, ht⟩ := finishPrintf_extends a (out ++ plain) argNum reordered
      exact ⟨plain ++ t, by dsimp only; rw [ht]; simp only [List.append_assoc]⟩
    | cons p rest =>
      dsimp only
      cases fmt.fastVerb a argNum (fmt.skipFlags rest) with
      | some fast =>
        obtain ⟨arg, c, cs⟩ := fast
        obtain ⟨t, ht⟩ := ih cs (out ++ plain ++ fmt.printArg arg c) (argNum + 1) reordered
        exact ⟨plain ++ fmt.printArg arg c ++ t, by dsimp only; rw [ht]; simp only [List.append_assoc]⟩
      | none =>
        dsimp only
        obtain ⟨t0, h0⟩ := readDirective_out a
          { out := out ++ plain, argNum := argNum, afterIndex := false, goodArgNum := true,
            reordered := reordered }
          (fmt.skipFlags rest)
        generalize fmt.readDirective a
          { out := out ++ plain, argNum := argNum, afterIndex := false, goodArgNum := true,
            reordered := reordered }
          (fmt.skipFlags rest) = r at h0
        dsimp only at h0
        cases r.2 with
        | nil =>
          obtain ⟨t, ht⟩ := finishPrintf_extends a (r.1.out ++ "%!(NOVERB)".data) r.1.argNum
            r.1.reordered
          exact ⟨plain ++ t0 ++ "%!(NOVERB)".data ++ t, by
            dsimp only; rw [ht, h0]; simp only [List.append_assoc]⟩
        | cons verb rest2 =>
          dsimp only
          obtain ⟨t1, h1⟩ := applyVerb_out a r.1 verb
          obtain ⟨t2, h2⟩ := ih rest2 (fmt.applyVerb a r.1 verb).out
            (fmt.applyVerb a r.1 verb).argNum (fmt.applyVerb a r.1 verb).reordered
          exact ⟨plain ++ t0 ++ t1 ++ t2, by rw [h2, h1, h0]; simp only [List.append_assoc]⟩

theorem takeWhile_until_percent (before rest : List Char) (h : '%' ∉ before) :
    (before ++ '%' :: rest).takeWhile (· ≠ '%') = before ∧
    (before ++ '%' :: rest).dropWhile (· ≠ '%') = '%' :: rest := by
  induction before with
  | nil => exact ⟨by simp [List.takeWhile], by simp [List.dropWhile]⟩
  | cons c cs ih =>
    have hc : c ≠ '%' := fun e => h (by simp [e])
    have hd : decide (c ≠ '%') = true := by simp [hc]
    have ih := ih (fun hm => h (List.mem_cons_of_mem c hm))
    constructor
    · rw [List.cons_append, List.takeWhile_cons, hd, if_pos rfl, ih.1]
    · rw [List.cons_append, List.dropWhile_cons, hd, if_pos rfl, ih.2]

theorem readDirective_verb (d : fmt.Directive) (c : Char) (cs : List Char)
    (hv : fmt.startsVerb c = true) (hd : d.afterIndex = false) :
    fmt.readDirective [] d (c :: cs) = (d, c :: cs) := by
  simp only [fmt.startsVerb, decide_eq_true_eq] at hv
  obtain ⟨h1, h2, h3, h4, h5, h6, h7, h8, h9⟩ := hv
  have hA : ∀ d' : fmt.Directive, d'.afterIndex = false →
      fmt.argNumber d' (c :: cs) 0 = (d', c :: cs) := by
    intro d' hd'
    unfold fmt.argNumber
    simp only [ne_eq, h6, not_false_eq_true, if_true]
    cases d'
    simp_all
  have hW : fmt.readWidth [] d (c :: cs) = (d, c :: cs) := by
    unfold fmt.readWidth
    split
    · rename_i heq
      simp only [List.cons.injEq] at heq
      exact absurd heq.1 h7
    · simp [fmt.parsenum, h5, hd]
  have hP : fmt.readPrecision [] d (c :: cs) = (d, c :: cs) := by
    unfold fmt.readPrecision
    split
    · rename_i heq
      simp only [List.cons.injEq] at heq
      exact absurd heq.1 h8
    · rfl
  unfold fmt.readDirective
  simp only [List.length_nil, hA d hd, hW, hP, hd, Bool.false_eq_true, if_false]

theorem skipFlags_verb (c : Char) (cs : List Char) (hv : fmt.startsVerb c = true) :
    fmt.skipFlags (c :: cs) = c :: cs := by
  simp only [fmt.startsVerb, decide_eq_true_eq] at hv
  obtain ⟨h1, h2, h3, h4, h5, h6, h7, h8, h9⟩ := hv
  have h0 : c ≠ '0' := fun e => h5 (by rw [e]; decide)
  simp [fmt.skipFlags, h1, h2, h3, h4, h0]

/-- With no operand, a percent sign followed by a verb character is rewritten:
the text before the first percent sign is kept, and the directive becomes
`%!` followed by the verb and `(MISSING)`. -/
theorem Sprintf_missing_operand (before after : List Char) (c : Char)
    (hb : '%' ∉ before) (hv : fmt.startsVerb c = true) :
    ∃ t, (fmt.Sprintf (String.mk (before ++ '%' :: c :: after)) []).data
      = before ++ '%' :: '!' :: c :: t := by
  obtain ⟨h1, h2⟩ := takeWhile_until_percent before (c :: after) hb
  have hc : c ≠ '%' := by
    simp only [fmt.startsVerb, decide_eq_true_eq] at hv
    exact hv.2.2.2.2.2.2.2.2
  unfold fmt.Sprintf
  rw [fmt.doPrintf]
  simp only [h1, h2, List.nil_append, skipFlags_verb c after hv]
  have hfast : fmt.fastVerb [] 0 (c :: after) = none := by
    simp [fmt.fastVerb]
  have hrd := readDirective_verb
    { out := before, argNum := 0, afterIndex := false, goodArgNum := true, reordered := false }
    c after hv rfl
  rw [hfast]
  simp only [hrd]
  obtain ⟨t, ht⟩ := doPrintf_extends [] (String.mk (before ++ '%' :: c :: after)).length after
    (fmt.applyVerb []
      { out := before, argNum := 0, afterIndex := false, goodArgNum := true,
        reordered := false } c).out
    (fmt.applyVerb []
      { out := before, argNum := 0, afterIndex := false, goodArgNum := true,
        reordered := false } c).argNum
    (fmt.applyVerb []
      { out := before, argNum := 0, afterIndex := false, goodArgNum := true,
        reordered := false } c).reordered
  rw [ht]
  refine ⟨"(MISSING)".data ++ t, ?_⟩
  simp [fmt.applyVerb, hc]

/-- With no operand, `fmt.Sprintf` changes a format whose first percent sign
is followed by a verb character other than `!`. -/
theorem Sprintf_changes (before after : List Char) (c : Char)
    (hb : '%' ∉ before) (hv : fmt.startsVerb c = true) (hbang : c ≠ '!') :
    fmt.Sprintf (String.mk (before ++ '%' :: c :: after)) []
      ≠ String.mk (before ++ '%' :: c :: after) := by
  obtain ⟨t, ht⟩ := Sprintf_missing_operand before after c hb hv
  intro he
  rw [he] at ht
  simp only [List.append_cancel_left_eq, List.cons.injEq, true_and] at ht
  exact hbang ht.1

/-- C9: the text `Handler` sends is not the pretty-printed payload as soon
as that text has a percent sign.  `Handler` passes the pretty-printed payload
to `Say` as the format of `fmt.Sprintf`; when its first percent sign is
followed by a verb character other than `!` (the closing quote of a string
field that ends in a percent sign, say), the chat receives a text that
differs from the pretty-printed payload, while the line logged just before is
the pretty-printed payload itself. -/
theorem C9_percent_rewritten (W : World) (b : Bot) (r : Request) (host port : List Char)
    (bt : BotAPI) (before after : List Char) (c : Char)
    (haddr : net.SplitHostPort r.RemoteAddr.data = .ok (host, port))
    (hallow : badguysLookup b.badguys r.RemoteAddr = false)
    (hbot : b.tgbot = some bt)
    (hsecret : r.queryGet "secret" = b.secret)
    (hfmt : W.Sprintf = fmt.Sprintf)
    (hshape : W.prettySprint (W.decodeWebhook r.Body Webhook.zero).1
      = String.mk (before ++ '%' :: c :: after))
    (hbefore : '%' ∉ before)
    (hverb : fmt.startsVerb c = true)
    (hbang : c ≠ '!') :
    ∃ text, sentMessages (b.Handler W .fresh r).events = [(b.tgchatid, text)] ∧
      text ≠ W.prettySprint (W.decodeWebhook r.Body Webhook.zero).1 ∧
      (b.Handler W .fresh r).events.head?
        = some (.log (W.prettySprint (W.decodeWebhook r.Body Webhook.zero).1)) := by
  obtain ⟨said, hsay, hsent⟩ :=
    Say_ready W b bt (W.prettySprint (W.decodeWebhook r.Body Webhook.zero).1) [] hbot
  refine ⟨W.Sprintf (W.prettySprint (W.decodeWebhook r.Body Webhook.zero).1) [], ?_, ?_, ?_⟩
  · rw [Handler_matching W b r host port haddr hallow hsecret, hsay]
    simpa [sentMessages] using hsent
  · rw [hfmt, hshape]
    exact Sprintf_changes before after c hbefore hverb hbang
  · rw [Handler_matching W b r host port haddr hallow hsecret, hsay]
    rfl

/-- C9, at the failing input: a webhook whose id is `100%`.  The percent sign
stands before the closing quote of the id; the chat receives a text that is
not the pretty-printed payload.  A short format shows the rewriting: `Say`
with the message `100%` and no operand sends `100%!(NOVERB)`. -/
theorem C9_percent_rewritten_witness :
    (∃ text, sentMessages (Bot.Handler (goWorld []) readyBot .fresh
        (webhookRequest "203.0.113.7:40000" "s3cret" "\x7b\"id\":\"100%\"\x7d")).events
        = [(42, text)] ∧
      text ≠ (goWorld []).prettySprint
        ((goWorld []).decodeWebhook "\x7b\"id\":\"100%\"\x7d" Webhook.zero).1 ∧
      (Bot.Handler (goWorld []) readyBot .fresh
        (webhookRequest "203.0.113.7:40000" "s3cret" "\x7b\"id\":\"100%\"\x7d")).events.head?
        = some (.log ((goWorld []).prettySprint
            ((goWorld []).decodeWebhook "\x7b\"id\":\"100%\"\x7d" Webhook.zero).1))) ∧
    fmt.Sprintf "ID: \"100%\"," [] = "ID: \"100%!\"(MISSING)," ∧
    sentMessages
      (match readyBot.Say (goWorld []) "100%" [] with
        | .ok said => said
        | .error _ => [])
      = [(42, "100%!(NOVERB)")] :=
  have h := C9_percent_rewritten (goWorld []) readyBot
    (webhookRequest "203.0.113.7:40000" "s3cret" "\x7b\"id\":\"100%\"\x7d")
    "203.0.113.7".data "40000".data ⟨"123:abc"⟩
    ((pretty.Sprint { Webhook.zero with ID := "100%" }).data.take 38)
    ((pretty.Sprint { Webhook.zero with ID := "100%" }).data.drop 40) '"'
    (by rfl) (by decide) rfl (by decide) rfl (by decide) (by decide) (by decide) (by decide)
  ⟨h, by decide, by decide⟩

end SellyNotify
